import Mathlib

/-!
# Verification of the crypto-top-dashboard ingestion and metrics pipeline

Shallow embedding of the repository's core:

* `store_data_incrementally` (src/data_fetcher.py): the incremental merge
  engine.  Pandas dataframes are modelled as a column-name list plus rows of
  cell values; SQLite tables use the same representation.  Text is modelled as
  `List Char`; `Value.canon` is the canonical text form of a cell, standing for
  both Python's `str(...)`/`astype(str)` and SQLite's text coercion inside
  `||`-concatenation (the two agree on the integer/string key values this
  repository uses as primary keys).  The Python function catches every
  exception and prints it; the model returns a `MergeOutcome` whose
  `loggedError` case is that caught-and-printed path.
* the rolling-metric engine (src/formulas.py): price series are rationals
  (floats modelled as exact arithmetic); a pandas series is a positional list
  and a rolling mean with `min_periods = w` is defined at index `i` iff
  `w ≤ i + 1`.  The timestamp column is carried only where a claim needs it
  (weekly resampling); elsewhere rows are identified positionally.
* the risk classifier and the overall-risk block (src/dashboard.py).
-/

/-- A dataframe / database cell value.  Floats are modelled as exact rationals;
text as `List Char`.  `null` models SQL NULL / missing cells (it arises only
when an insert fills a target column absent from the batch). -/
inductive Value where
  | int (n : Int)
  | rat (q : ℚ)
  | str (s : List Char)
  | null
deriving DecidableEq, Repr

/-- Canonical text form of a cell: Python `str(...)` on the batch side and
SQLite text coercion on the table side (they agree on the integer and string
values used as keys in this repository; dates are already stored as their
canonical `YYYY-MM-DD` strings). -/
def Value.canon : Value → List Char
  | .int n => (toString n).data
  | .rat q => (toString q).data
  | .str s => s
  | .null => "None".data

/-- Numeric reading of a cell, modelling `astype(float)`. -/
def Value.asRat? : Value → Option ℚ
  | .int n => some (n : ℚ)
  | .rat q => some q
  | .str _ => none
  | .null => none

/-- A pandas dataframe, and equally a SQLite table: ordered column names and
rows of cells (a well-formed row has one cell per column). -/
structure DataFrame where
  columns : List String
  rows : List (List Value)
deriving DecidableEq, Repr

/-- Cell of `row` in column `c` (columns matched by name, as pandas and SQL
do). -/
def getVal (cols : List String) (row : List Value) (c : String) : Option Value :=
  (cols.zip row).lookup c

/-- `'_'.join` on canonical text parts, exactly as
`df[pk].astype(str).agg('_'.join, axis=1)` and the SQL
`col1 || '_' || col2 || ...` build the composite key. -/
def joinSep : List (List Char) → List Char
  | [] => []
  | [p] => p
  | p :: q :: ps => p ++ '_' :: joinSep (q :: ps)

/-- Composite key of one row over the key columns `pk` (missing cells read as
NULL; the engine checks the columns exist before using this). -/
def compositeKeyD (cols : List String) (pk : List String) (row : List Value) : List Char :=
  joinSep (pk.map (fun c => ((getVal cols row c).getD Value.null).canon))

/-- The temporary helper column the engine adds to the caller's batch. -/
def tempCol : String := "_temp_composite_pk_for_merge"

/-- `df[c] = vals`: overwrite the column if present, else append it (pandas
column assignment). -/
def DataFrame.setCol (df : DataFrame) (c : String) (vals : List Value) : DataFrame :=
  if df.columns.contains c then
    ⟨df.columns,
     (df.rows.zip vals).map (fun rv =>
       (df.columns.zip rv.1).map (fun cv => if cv.1 == c then rv.2 else cv.2))⟩
  else
    ⟨df.columns ++ [c], (df.rows.zip vals).map (fun rv => rv.1 ++ [rv.2])⟩

/-- Result of one merge call.  The Python function prints and returns `None` in
every case; `loggedError` is its blanket `except Exception as e: print(...)`
path (the error text is printed, never raised to the caller). -/
inductive MergeOutcome where
  | skippedEmpty
  | inserted (n : Nat)
  | loggedError (msg : String)
deriving DecidableEq, Repr

/-- Rows actually inserted by an outcome. -/
def MergeOutcome.insertedCount : MergeOutcome → Nat
  | .inserted n => n
  | _ => 0

/-- Composite keys of the batch rows
(`df_new_data[pk].astype(str).agg('_'.join, axis=1)`). -/
def newCompositeKeys (df : DataFrame) (pk : List String) : List (List Char) :=
  df.rows.map (compositeKeyD df.columns pk)

/-- Composite keys already in the target
(`SELECT DISTINCT col1 || '_' || ... FROM target`); a failing query — the
table or a key column missing — is caught (`except pd.io.sql.DatabaseError`)
and treated as no existing keys. -/
def existingCompositeKeys (t : DataFrame) (pk : List String) : List (List Char) :=
  if pk.all (fun c => t.columns.contains c) then
    t.rows.map (compositeKeyD t.columns pk)
  else []

/-- `df_to_insert[original_columns].to_sql(target, if_exists='append')`:
every batch column must exist in the target (otherwise SQLite raises, which
the engine catches and logs — modelled as `none`); target columns absent from
the batch are filled with NULL. -/
def insertProjected (t : DataFrame) (batchCols : List String) (rows : List (List Value)) :
    Option DataFrame :=
  if batchCols.all (fun c => t.columns.contains c) then
    some ⟨t.columns,
          t.rows ++ rows.map (fun r =>
            t.columns.map (fun c => (getVal batchCols r c).getD Value.null))⟩
  else none

/-- The distinct existing values of a single key column
(`SELECT DISTINCT c FROM target`); a failing query — table or column
missing — is caught and treated as no existing keys. -/
def existingSingleVals (t : DataFrame) (c : String) : List Value :=
  if t.columns.contains c then
    t.rows.map (fun r => (getVal t.columns r c).getD Value.null)
  else []

/-- The batch's single key column (`df_new_data[pk_col_name]`). -/
def newSingleVals (df : DataFrame) (c : String) : List Value :=
  df.rows.map (fun r => (getVal df.columns r c).getD Value.null)

/-- Does the single-key column take the date comparison path
(`'date' in pk_col_name.lower()`)? -/
def isDateName (c : String) : Bool := (c.toLower.splitOn "date").length != 1

/-- `pd.api.types.is_numeric_dtype` on a column, read off its values. -/
def colIsNumeric (vals : List Value) : Bool := vals.all (fun v => v.asRat?.isSome)

/-- Shared tail of the single-key path: insert the deduplicated subset, or
log the SQLite error if a batch column is missing from the target. -/
def finishSingle (t df : DataFrame) (keep : List (List Value)) :
    DataFrame × DataFrame × MergeOutcome :=
  if keep.isEmpty then (t, df, .inserted 0)
  else
    match insertProjected t df.columns keep with
    | some t2 => (t2, df, .inserted keep.length)
    | none => (t, df, .loggedError "OperationalError: table has no column named ...")

/-- `store_data_incrementally(df_new_data, table_name, pk_columns_list)` from
src/data_fetcher.py.  Returns the target table after the call, the caller's
batch dataframe after the call (the composite path mutates it in place), and
the outcome.  Faithful points: the composite path adds the
`_temp_composite_pk_for_merge` column to the caller's batch and drops it only
from the inserted copy; a batch missing a key column raises a KeyError that
the engine's blanket `except` catches and prints; when the existing-keys read
returns nothing every batch row is inserted; the single-key path compares
dates by canonical string, numeric columns via `astype(float)` (a non-numeric
existing key then raises a ValueError, caught and printed), everything else as
text. -/
def store_data_incrementally (t df : DataFrame) (pk : List String) :
    DataFrame × DataFrame × MergeOutcome :=
  if df.rows.isEmpty then (t, df, .skippedEmpty)
  else if 1 < pk.length then
    if pk.all (fun c => df.columns.contains c) then
      let newKeys := newCompositeKeys df pk
      let df2 := df.setCol tempCol (newKeys.map Value.str)
      let exKeys := existingCompositeKeys t pk
      let toInsert := (df.rows.zip newKeys).filterMap
        (fun rk => if exKeys.contains rk.2 then none else some rk.1)
      let origCols := df2.columns.filter (fun c => ¬ c == tempCol)
      if toInsert.isEmpty then (t, df2, .inserted 0)
      else
        match insertProjected t origCols toInsert with
        | some t2 => (t2, df2, .inserted toInsert.length)
        | none => (t, df2, .loggedError "OperationalError: table has no column named ...")
    else (t, df, .loggedError "KeyError: missing key columns in batch")
  else
    match pk with
    | [] => (t, df, .loggedError "IndexError: list index out of range")
    | c :: _ =>
      let exVals := existingSingleVals t c
      if exVals.isEmpty then
        match insertProjected t df.columns df.rows with
        | some t2 => (t2, df, .inserted df.rows.length)
        | none => (t, df, .loggedError "OperationalError: table has no column named ...")
      else
        if df.columns.contains c then
          let newVals := newSingleVals df c
          if isDateName c then
            finishSingle t df ((df.rows.zip newVals).filterMap (fun rv =>
              if exVals.any (fun e => e.canon == rv.2.canon) then none else some rv.1))
          else if colIsNumeric newVals then
            if exVals.all (fun e => e.asRat?.isSome) then
              finishSingle t df ((df.rows.zip newVals).filterMap (fun rv =>
                if exVals.any (fun e => e.asRat? == rv.2.asRat?) then none else some rv.1))
            else (t, df, .loggedError "ValueError: could not convert existing keys to float")
          else
            finishSingle t df ((df.rows.zip newVals).filterMap (fun rv =>
              if exVals.any (fun e => e.canon == rv.2.canon) then none else some rv.1))
        else (t, df, .loggedError "KeyError: missing key column in batch")

/-! ## Rolling metric engine (src/formulas.py)

A price series is a positional list of rationals (pandas float arithmetic
modelled exactly).  `rollingMeanAt w xs i` is
`xs.rolling(window=w, min_periods=w).mean()` at index `i`: defined iff the
trailing window of `w` points is fully populated. -/

/-- Trailing `w`-point simple moving average at index `i`; `none` where the
window is only partially populated (`min_periods = w`). -/
def rollingMeanAt (w : Nat) (xs : List ℚ) (i : Nat) : Option ℚ :=
  if w ≤ i + 1 then some ((((xs.drop (i + 1 - w)).take w).sum) / w) else none

/-- Same, over a series that itself has missing points (the weekly resample
fills calendar gaps with NaN): the mean is defined only when every point of
the window is present. -/
def rollingMeanOptAt (w : Nat) (xs : List (Option ℚ)) (i : Nat) : Option ℚ :=
  if w ≤ i + 1 then
    match ((xs.drop (i + 1 - w)).take w).mapM id with
    | some vs => some (vs.sum / w)
    | none => none
  else none

/-- One row of the `pi_cycle_data` table (timestamps omitted: rows are
positional). -/
structure PiRow where
  btc_price : ℚ
  sma_111 : ℚ
  sma_350_doubled : ℚ
  signal : String
deriving DecidableEq, Repr

/-- The exact signal string `calculate_pi_cycle_top` stores on a crossed row. -/
def piCrossedLabel : String := "High Risk (111DMA >= 350DMA*2 - CROSSED)"

/-- The signal string on an uncrossed row. -/
def piNeutralLabel : String := "Neutral"

/-- The Pi Cycle dataframe row at index `i`: kept iff both moving averages are
defined (`dropna(subset=['sma_111','sma_350_doubled'])`); the signal defaults
to Neutral and is overwritten where `sma_111 >= sma_350_doubled`. -/
def piEntry (prices : List ℚ) (i : Nat) : Option PiRow :=
  match rollingMeanAt 111 prices i, rollingMeanAt 350 prices i with
  | some a, some b =>
    some ⟨prices.getD i 0, a, 2 * b, if 2 * b ≤ a then piCrossedLabel else piNeutralLabel⟩
  | _, _ => none

/-- The rows `calculate_pi_cycle_top` keeps after dropping partial windows. -/
def piCycleRows (prices : List ℚ) : List PiRow :=
  (List.range prices.length).filterMap (piEntry prices)

/-- Extended value of a pandas float division: NaN on 0/0 or when the
denominator is missing, signed infinity on x/0 with x ≠ 0.  No exception is
ever raised. -/
inductive ExtQ where
  | nan
  | posInf
  | negInf
  | fin (q : ℚ)
deriving DecidableEq, Repr

/-- `a / b` in pandas float semantics, `b` possibly missing. -/
def extDiv (a : ℚ) (b : Option ℚ) : ExtQ :=
  match b with
  | none => .nan
  | some m =>
    if m = 0 then (if a = 0 then .nan else if 0 < a then .posInf else .negInf)
    else .fin (a / m)

/-- Current block reward (post-April-2024 halving) times blocks per day:
`3.125 * 144` BTC issued per day, a fixed constant in the source. -/
def daily_issuance_btc : ℚ := (25 / 8) * 144

/-- One row of `puell_multiple_calculated` (timestamps omitted). -/
structure PuellRow where
  btc_price : ℚ
  daily_issuance_usd : ℚ
  daily_issuance_usd_365d_ma : ℚ
  puell_multiple : ExtQ
deriving DecidableEq, Repr

/-- The Puell dataframe row at index `i`: kept iff `puell_multiple` is not NaN
(`dropna(subset=['puell_multiple'])`).  A zero moving average with nonzero
issuance gives an infinity, which is *not* NaN and therefore kept. -/
def puellEntry (prices : List ℚ) (i : Nat) : Option PuellRow :=
  let issuance := daily_issuance_btc * prices.getD i 0
  let ma := rollingMeanAt 365 (prices.map (fun p => daily_issuance_btc * p)) i
  match extDiv issuance ma with
  | .nan => none
  | e => some ⟨prices.getD i 0, issuance, ma.getD 0, e⟩

/-- The rows `calculate_puell_multiple_alternative` keeps. -/
def puellRows (prices : List ℚ) : List PuellRow :=
  (List.range prices.length).filterMap (puellEntry prices)

/-- Calendar week of a Unix day number for `resample('W-SUN')`: weeks end on
Sunday; Unix day 0 (1970-01-01) is a Thursday, so day 3 is the first Sunday. -/
def weekIndex (day : Nat) : Nat := (day + 3) / 7

/-- Last price within calendar week `w` of a day-stamped series. -/
def weekLast (xs : List (Nat × ℚ)) (w : Nat) : Option ℚ :=
  ((xs.filter (fun dp => weekIndex dp.1 == w)).getLast?).map (fun dp => dp.2)

/-- `resample('W-SUN').last()` on an ascending day-stamped series: one entry
per calendar week from the first to the last observation, `none` for weeks
with no observation. -/
def weeklySeries (xs : List (Nat × ℚ)) : List (Option ℚ) :=
  match xs.head?, xs.getLast? with
  | some a, some b =>
    (List.range (weekIndex b.1 + 1 - weekIndex a.1)).map
      (fun k => weekLast xs (weekIndex a.1 + k))
  | _, _ => []

/-- One row of `wma_200_data`: the weekly closing price alongside the
200-week moving average. -/
structure WmaRow where
  btc_price : Option ℚ
  wma_200 : ℚ
deriving DecidableEq, Repr

/-- The 200WMA dataframe row at weekly index `i`: kept iff the 200-week mean
is defined (`dropna(subset=['wma_200'])`). -/
def wmaEntry (wk : List (Option ℚ)) (i : Nat) : Option WmaRow :=
  match rollingMeanOptAt 200 wk i with
  | some m => some ⟨wk.getD i none, m⟩
  | none => none

/-- The rows `calculate_200wma` keeps. -/
def wmaRows (wk : List (Option ℚ)) : List WmaRow :=
  (List.range wk.length).filterMap (wmaEntry wk)

/-- One row of `s2f_data`: the same (current-constant) ratio and model price
on every row, only the price varies. -/
structure S2FRow where
  timestamp : Nat
  btc_price : ℚ
  s2f_ratio_value : ℚ
  s2f_price_model : ℚ
deriving DecidableEq, Repr

/-- The derived tables of the store; each recompute fully replaces one of
them (`to_sql(..., if_exists='replace')`). -/
structure DerivedTables where
  pi_cycle_data : List PiRow
  wma_200_data : List WmaRow
  s2f_data : List S2FRow
  puell_multiple_calculated : List PuellRow
deriving DecidableEq, Repr

/-- What one metric recompute reports: a soft "insufficient history" skip, an
empty-after-dropna skip, or a successful full rewrite of `n` rows.  All are
ordinary returns — the source prints the message and returns `None`. -/
inductive CalcReport where
  | insufficientHistory (msg : String)
  | emptyAfterDropna
  | stored (n : Nat)
deriving DecidableEq, Repr

/-- Is the report an insufficient-history skip? -/
def CalcReport.isInsufficientHistory : CalcReport → Bool
  | .insufficientHistory _ => true
  | _ => false

/-- `calculate_pi_cycle_top`: needs 350 daily points; on success the
`pi_cycle_data` table is fully replaced, otherwise the store is untouched. -/
def calculate_pi_cycle_top (prices : List ℚ) (db : DerivedTables) :
    DerivedTables × CalcReport :=
  if prices.length < 350 then
    (db, .insufficientHistory "Not enough Bitcoin price data to calculate Pi Cycle Top.")
  else
    let rows := piCycleRows prices
    if rows.isEmpty then (db, .emptyAfterDropna)
    else ({db with pi_cycle_data := rows}, .stored rows.length)

/-- `calculate_200wma`: needs ~1400 daily points and 200 weekly buckets after
resampling; on success `wma_200_data` is fully replaced. -/
def calculate_200wma (daily : List (Nat × ℚ)) (db : DerivedTables) :
    DerivedTables × CalcReport :=
  if daily.length < 1400 then
    (db, .insufficientHistory "Not enough Bitcoin daily price data for 200WMA.")
  else
    let wk := weeklySeries daily
    if wk.length < 200 then
      (db, .insufficientHistory "Not enough weekly data points after resampling for 200WMA.")
    else
      let rows := wmaRows wk
      if rows.isEmpty then (db, .emptyAfterDropna)
      else ({db with wma_200_data := rows}, .stored rows.length)

/-- `calculate_s2f_model`: needs at least one price row and one circulating-
supply snapshot; the model price `exp(14.607) * ratio ^ 3.3168` is
transcendental, so the map `ratio ↦ exp(14.607) * ratio ^ 3.3168` is passed in
as `powModel` (its value never affects control flow). -/
def calculate_s2f_model (powModel : ℚ → ℚ) (prices : List (Nat × ℚ))
    (supply : Option ℚ) (db : DerivedTables) : DerivedTables × CalcReport :=
  if prices.isEmpty then
    (db, .insufficientHistory "No Bitcoin price data for S2F calculations.")
  else
    match supply with
    | none => (db, .insufficientHistory "Circulating supply not found in database for S2F.")
    | some s =>
      let annual_flow := daily_issuance_btc * (36525 / 100)
      let s2f_ratio_value := if 0 < annual_flow then s / annual_flow else 0
      let s2f_model_price := if 0 < s2f_ratio_value ∧ 0 < s then powModel s2f_ratio_value / s else 0
      let rows := prices.map (fun dp =>
        (⟨dp.1, dp.2, s2f_ratio_value, s2f_model_price⟩ : S2FRow))
      ({db with s2f_data := rows}, .stored rows.length)

/-- `calculate_puell_multiple_alternative`: needs 365 daily points; on success
`puell_multiple_calculated` is fully replaced. -/
def calculate_puell_multiple_alternative (prices : List ℚ) (db : DerivedTables) :
    DerivedTables × CalcReport :=
  if prices.length < 365 then
    (db, .insufficientHistory "Not enough Bitcoin price data to calculate Puell Multiple accurately.")
  else
    let rows := puellRows prices
    if rows.isEmpty then (db, .emptyAfterDropna)
    else ({db with puell_multiple_calculated := rows}, .stored rows.length)

/-! ## Risk classifier and overall risk block (src/dashboard.py,
src/thresholds_config.py) -/

/-- Overall-risk thresholds from thresholds_config.py. -/
def OVERALL_HIGH_RISK_COUNT_RED : Nat := 3

/-- Red count that already makes the overall verdict Medium. -/
def OVERALL_MEDIUM_RISK_COUNT_RED : Nat := 2

/-- Red + Yellow sum that makes the overall verdict Medium. -/
def OVERALL_MEDIUM_RISK_SUM_YELLOW_RED : Nat := 4

/-- The `value` argument of `get_risk_color_html`: missing (`None`/NaN), a
number (possibly arriving as a numeric string, which `float(value)`
converts), or text that `float(value)` rejects with a ValueError. -/
inductive DashValue where
  | missing
  | num (q : ℚ)
  | badText (s : String)
deriving DecidableEq, Repr

/-- `get_risk_color_html(value, high_threshold, medium_threshold, low_is_good)`
from src/dashboard.py, reduced to its semantic content: the colour and the
risk-level text it embeds in the returned HTML span (the surrounding markup
and the `value_format` rendering are presentation only). -/
def get_risk_color_html (value : DashValue) (high_threshold medium_threshold : ℚ)
    (low_is_good : Bool) : String × String :=
  match value with
  | .missing => ("grey", "Data N/A")
  | .badText s => ("grey", "Invalid Value (" ++ s ++ ")")
  | .num v =>
    if low_is_good then
      if high_threshold ≤ v then ("red", "High")
      else if medium_threshold ≤ v then ("orange", "Medium")
      else ("green", "Low")
    else
      if v ≤ high_threshold then ("red", "High (Risk)")
      else if v ≤ medium_threshold then ("orange", "Medium (Risk)")
      else ("green", "Low")

/-- The spec's tier vocabulary for a classified indicator. -/
inductive Tier where
  | low
  | medium
  | high
  | unavailable
deriving DecidableEq, Repr

/-- The tier an emitted colour denotes (red/orange/green are exactly the
colours the dashboard counts as High/Medium/Low signals; grey is the
no-signal rendering). -/
def tierOfColor (c : String) : Tier :=
  if c = "red" then .high
  else if c = "orange" then .medium
  else if c = "green" then .low
  else .unavailable

/-- The per-run tally `overall_risk_signals` of src/dashboard.py: counts of
indicators that signalled red (High), yellow (Medium), green (Low) and N/A. -/
structure RiskCounts where
  red : Nat
  yellow : Nat
  green : Nat
  na : Nat
deriving DecidableEq, Repr

/-- The overall verdict the assessment block renders. -/
inductive OverallVerdict where
  | high
  | medium
  | low
deriving DecidableEq, Repr

/-- The overall risk assessment block of src/dashboard.py (lines 409-447):
with at least one conclusive indicator it renders a verdict and the progress
score `(2*Red + Yellow) / (2*(Red+Yellow+Green))`; with none it renders only
"Not enough conclusive signals..." — modelled as `none`. -/
def overallRiskAssessment (c : RiskCounts) : Option (OverallVerdict × ℚ) :=
  let countable := c.green + c.yellow + c.red
  if 0 < countable then
    let verdict :=
      if OVERALL_HIGH_RISK_COUNT_RED ≤ c.red then OverallVerdict.high
      else if OVERALL_MEDIUM_RISK_COUNT_RED ≤ c.red ∨
              OVERALL_MEDIUM_RISK_SUM_YELLOW_RED ≤ c.red + c.yellow then OverallVerdict.medium
      else OverallVerdict.low
    some (verdict, (2 * c.red + c.yellow : ℚ) / (2 * countable))
  else none

/-! ## General helper lemmas -/

/-- Looking up a column in a row built by mapping over the column list. -/
theorem getVal_map_self (g : String → Value) :
    ∀ (cols : List String) (c : String), c ∈ cols →
      getVal cols (cols.map g) c = some (g c) := by
  intro cols
  induction cols with
  | nil => intro c hc; cases hc
  | cons d ds ih =>
    intro c hc
    simp only [getVal, List.map_cons, List.zip_cons_cons, List.lookup_cons]
    by_cases hcd : (c == d) = true
    · obtain rfl := eq_of_beq hcd
      simp
    · rw [Bool.not_eq_true] at hcd
      simp only [hcd]
      rcases List.mem_cons.mp hc with rfl | hmem
      · simp at hcd
      · exact ih c hmem

/-- A cell lookup succeeds when the column exists and the row is full. -/
theorem getVal_isSome :
    ∀ (cols : List String) (row : List Value) (c : String), c ∈ cols →
      row.length = cols.length → (getVal cols row c).isSome := by
  intro cols
  induction cols with
  | nil => intro row c hc; cases hc
  | cons d ds ih =>
    intro row c hc hlen
    cases row with
    | nil => simp at hlen
    | cons v vs =>
      simp only [getVal, List.zip_cons_cons, List.lookup_cons]
      by_cases hcd : (c == d) = true
      · simp [hcd]
      · rw [Bool.not_eq_true] at hcd
        simp only [hcd]
        rcases List.mem_cons.mp hc with rfl | hmem
        · simp at hcd
        · exact ih vs c hmem (by simpa using hlen)

/-- Appending columns and cells on the right does not change a lookup that
succeeds on the left. -/
theorem getVal_append_left (cols : List String) (row : List Value)
    (cs2 : List String) (row2 : List Value) (c : String) (hc : c ∈ cols)
    (hlen : row.length = cols.length) :
    getVal (cols ++ cs2) (row ++ row2) c = getVal cols row c := by
  unfold getVal
  rw [List.zip_append hlen.symm, List.lookup_append]
  have h := getVal_isSome cols row c hc hlen
  unfold getVal at h
  cases hv : (cols.zip row).lookup c with
  | none => rw [hv] at h; cases h
  | some v => simp [hv]

/-- `l.zip (l.map f)` is the graph of `f` over `l`. -/
theorem zip_map_self {α β : Type _} (f : α → β) (l : List α) :
    l.zip (l.map f) = l.map (fun a => (a, f a)) := by
  have := List.zip_map' (fun a => a) f l
  simpa using this

/-- The dedup filter of the merge engine, rewritten from its
zip-and-filterMap form to a plain filter. -/
theorem zip_map_filterMap {α β : Type _} (f : α → β) (p : β → Bool) (l : List α) :
    ((l.zip (l.map f)).filterMap (fun rk => if p rk.2 then none else some rk.1)) =
      l.filter (fun a => ! p (f a)) := by
  rw [zip_map_self]
  induction l with
  | nil => rfl
  | cons a as ih =>
    simp only [List.map_cons, List.filterMap_cons, List.filter_cons]
    by_cases hp : p (f a)
    · simp [hp, ih]
    · simp [hp, ih]

/-- `filterMap` over `range L` of a guarded map is a map over the tail
`range' m (L - m)` of the index range. -/
theorem filterMap_range_guard {β : Type _} (m : Nat) (g : Nat → β) (f : Nat → Option β) :
    ∀ (L : Nat), (∀ i, i < L → f i = if m ≤ i then some (g i) else none) →
      (List.range L).filterMap f = (List.range' m (L - m)).map g := by
  intro L
  induction L with
  | zero => intro _; simp
  | succ n ih =>
    intro hf
    rw [List.range_succ, List.filterMap_append,
      ih (fun i hi => hf i (Nat.lt_succ_of_lt hi))]
    by_cases hm : m ≤ n
    · have hn : n + 1 - m = (n - m) + 1 := by omega
      rw [hn, List.range'_1_concat, List.map_append]
      have : m + (n - m) = n := by omega
      rw [this]
      simp [hf n (Nat.lt_succ_self n), hm]
    · have hn : n + 1 - m = 0 := by omega
      have hn2 : n - m = 0 := by omega
      rw [hn, hn2]
      simp [hf n (Nat.lt_succ_self n), hm]

/-! ## C6: classifier threshold semantics -/

/-- Red denotes the High tier. -/
theorem tierOfColor_red : tierOfColor "red" = Tier.high := by decide

/-- Orange denotes the Medium tier. -/
theorem tierOfColor_orange : tierOfColor "orange" = Tier.medium := by decide

/-- Green denotes the Low tier. -/
theorem tierOfColor_green : tierOfColor "green" = Tier.low := by decide

/-- Grey denotes the Unavailable rendering. -/
theorem tierOfColor_grey : tierOfColor "grey" = Tier.unavailable := by decide

/-- Colour of a numeric classification with `low_is_good`. -/
theorem risk_color_fst_true (v h m : ℚ) :
    (get_risk_color_html (.num v) h m true).1 =
      (if h ≤ v then "red" else if m ≤ v then "orange" else "green") := by
  simp only [get_risk_color_html]
  split_ifs <;> rfl

/-- Colour of a numeric classification with `low_is_good = false`. -/
theorem risk_color_fst_false (v h m : ℚ) :
    (get_risk_color_html (.num v) h m false).1 =
      (if v ≤ h then "red" else if v ≤ m then "orange" else "green") := by
  simp only [get_risk_color_html, Bool.false_eq_true, if_false]
  split_ifs <;> rfl

/-- **C6** Classifier threshold semantics: for a numeric value `v`, with
`low_is_good` the classifier yields the High tier iff `v ≥ high_threshold`
(inclusive boundary), Medium iff `medium_threshold ≤ v < high_threshold`,
Low otherwise; with `low_is_good = false` it yields High iff
`v ≤ high_threshold`, Medium iff `high_threshold < v ≤ medium_threshold`,
Low otherwise; a missing or non-numeric value always yields the Unavailable
rendering, never a risk tier. -/
theorem classifier_threshold_semantics (v high_threshold medium_threshold : ℚ) :
    (tierOfColor (get_risk_color_html (.num v) high_threshold medium_threshold true).1 = .high
      ↔ high_threshold ≤ v) ∧
    (tierOfColor (get_risk_color_html (.num v) high_threshold medium_threshold true).1 = .medium
      ↔ medium_threshold ≤ v ∧ v < high_threshold) ∧
    (tierOfColor (get_risk_color_html (.num v) high_threshold medium_threshold true).1 = .low
      ↔ v < medium_threshold ∧ v < high_threshold) ∧
    (tierOfColor (get_risk_color_html (.num v) high_threshold medium_threshold false).1 = .high
      ↔ v ≤ high_threshold) ∧
    (tierOfColor (get_risk_color_html (.num v) high_threshold medium_threshold false).1 = .medium
      ↔ high_threshold < v ∧ v ≤ medium_threshold) ∧
    (tierOfColor (get_risk_color_html (.num v) high_threshold medium_threshold false).1 = .low
      ↔ high_threshold < v ∧ medium_threshold < v) ∧
    (∀ lig : Bool,
      tierOfColor (get_risk_color_html .missing high_threshold medium_threshold lig).1
        = .unavailable) ∧
    (∀ (lig : Bool) (s : String),
      tierOfColor (get_risk_color_html (.badText s) high_threshold medium_threshold lig).1
        = .unavailable) := by
  refine ⟨?_, ?_, ?_, ?_, ?_, ?_, ?_, ?_⟩
  · rw [risk_color_fst_true]
    by_cases h1 : high_threshold ≤ v
    · rw [if_pos h1, tierOfColor_red]; simp [h1]
    · by_cases h2 : medium_threshold ≤ v
      · rw [if_neg h1, if_pos h2, tierOfColor_orange]; simp [h1]
      · rw [if_neg h1, if_neg h2, tierOfColor_green]; simp [h1]
  · rw [risk_color_fst_true]
    by_cases h1 : high_threshold ≤ v
    · rw [if_pos h1, tierOfColor_red]
      simp only [false_iff, reduceCtorEq]
      rintro ⟨-, hlt⟩
      exact absurd h1 (not_le.mpr hlt)
    · by_cases h2 : medium_threshold ≤ v
      · rw [if_neg h1, if_pos h2, tierOfColor_orange]
        simp [h2, not_le.mp h1]
      · rw [if_neg h1, if_neg h2, tierOfColor_green]
        simp only [false_iff, reduceCtorEq]
        rintro ⟨hm, -⟩
        exact h2 hm
  · rw [risk_color_fst_true]
    by_cases h1 : high_threshold ≤ v
    · rw [if_pos h1, tierOfColor_red]
      simp only [false_iff, reduceCtorEq]
      rintro ⟨-, hlt⟩
      exact absurd h1 (not_le.mpr hlt)
    · by_cases h2 : medium_threshold ≤ v
      · rw [if_neg h1, if_pos h2, tierOfColor_orange]
        simp only [false_iff, reduceCtorEq]
        rintro ⟨hm, -⟩
        exact absurd h2 (not_le.mpr hm)
      · rw [if_neg h1, if_neg h2, tierOfColor_green]
        simp [not_le.mp h1, not_le.mp h2]
  · rw [risk_color_fst_false]
    by_cases h1 : v ≤ high_threshold
    · rw [if_pos h1, tierOfColor_red]; simp [h1]
    · by_cases h2 : v ≤ medium_threshold
      · rw [if_neg h1, if_pos h2, tierOfColor_orange]; simp [h1]
      · rw [if_neg h1, if_neg h2, tierOfColor_green]; simp [h1]
  · rw [risk_color_fst_false]
    by_cases h1 : v ≤ high_threshold
    · rw [if_pos h1, tierOfColor_red]
      simp only [false_iff, reduceCtorEq]
      rintro ⟨hlt, -⟩
      exact absurd h1 (not_le.mpr hlt)
    · by_cases h2 : v ≤ medium_threshold
      · rw [if_neg h1, if_pos h2, tierOfColor_orange]
        simp [h2, not_le.mp h1]
      · rw [if_neg h1, if_neg h2, tierOfColor_green]
        simp only [false_iff, reduceCtorEq]
        rintro ⟨-, hm⟩
        exact h2 hm
  · rw [risk_color_fst_false]
    by_cases h1 : v ≤ high_threshold
    · rw [if_pos h1, tierOfColor_red]
      simp only [false_iff, reduceCtorEq]
      rintro ⟨hlt, -⟩
      exact absurd h1 (not_le.mpr hlt)
    · by_cases h2 : v ≤ medium_threshold
      · rw [if_neg h1, if_pos h2, tierOfColor_orange]
        simp only [false_iff, reduceCtorEq]
        rintro ⟨-, hm⟩
        exact absurd h2 (not_le.mpr hm)
      · rw [if_neg h1, if_neg h2, tierOfColor_green]
        simp [not_le.mp h1, not_le.mp h2]
  · intro lig
    cases lig <;> rw [show (get_risk_color_html .missing high_threshold medium_threshold _).1
        = "grey" from rfl, tierOfColor_grey]
  · intro lig s
    cases lig <;> rw [show (get_risk_color_html (.badText s) high_threshold medium_threshold _).1
        = "grey" from rfl, tierOfColor_grey]

/-! ## C7: aggregator totality (corrected) -/

/-- **C7 counterexample** With all four tier counts zero the overall risk
assessment block of src/dashboard.py renders only the "Not enough conclusive
signals" fallback: it produces no overall verdict and no risk score, instead
of the claimed Low verdict with score 0. -/
theorem aggregator_all_zero_counterexample :
    overallRiskAssessment ⟨0, 0, 0, 0⟩ = none := rfl

/-- **C7 (amended)** With at least one conclusive (High/Medium/Low) indicator
the assessment block is total and pure: it yields High iff
`count(High) ≥ OVERALL_HIGH_RISK_COUNT_RED`, else Medium iff
`count(High) ≥ OVERALL_MEDIUM_RISK_COUNT_RED` or
`count(High)+count(Medium) ≥ OVERALL_MEDIUM_RISK_SUM_YELLOW_RED`, else Low,
together with the risk score `(2·High + Medium) / (2·(High+Medium+Low))`,
which always lies in `[0,1]`.  With zero conclusive indicators it yields
nothing — no verdict and no score. -/
theorem aggregator_totality_amended (c : RiskCounts) :
    (c.green + c.yellow + c.red = 0 → overallRiskAssessment c = none) ∧
    (0 < c.green + c.yellow + c.red →
      ∃ v s, overallRiskAssessment c = some (v, s) ∧
        (v = OverallVerdict.high ↔ OVERALL_HIGH_RISK_COUNT_RED ≤ c.red) ∧
        (v = OverallVerdict.medium ↔ c.red < OVERALL_HIGH_RISK_COUNT_RED ∧
          (OVERALL_MEDIUM_RISK_COUNT_RED ≤ c.red ∨
           OVERALL_MEDIUM_RISK_SUM_YELLOW_RED ≤ c.red + c.yellow)) ∧
        (v = OverallVerdict.low ↔ c.red < OVERALL_MEDIUM_RISK_COUNT_RED ∧
          c.red + c.yellow < OVERALL_MEDIUM_RISK_SUM_YELLOW_RED) ∧
        s = (2 * c.red + c.yellow : ℚ) / (2 * (c.green + c.yellow + c.red)) ∧
        0 ≤ s ∧ s ≤ 1) := by
  constructor
  · intro h0
    simp [overallRiskAssessment, h0]
  · intro hpos
    have hden : (0 : ℚ) < 2 * ((c.green + c.yellow + c.red : ℕ) : ℚ) := by
      have h1 : (0 : ℚ) < ((c.green + c.yellow + c.red : ℕ) : ℚ) := by exact_mod_cast hpos
      linarith
    refine ⟨(if OVERALL_HIGH_RISK_COUNT_RED ≤ c.red then OverallVerdict.high
        else if OVERALL_MEDIUM_RISK_COUNT_RED ≤ c.red ∨
                OVERALL_MEDIUM_RISK_SUM_YELLOW_RED ≤ c.red + c.yellow then OverallVerdict.medium
        else OverallVerdict.low),
      (2 * c.red + c.yellow : ℚ) / (2 * ((c.green + c.yellow + c.red : ℕ) : ℚ)),
      ?_, ?_, ?_, ?_, ?_, ?_, ?_⟩
    · simp only [overallRiskAssessment]
      rw [if_pos hpos]
    · by_cases h3 : OVERALL_HIGH_RISK_COUNT_RED ≤ c.red
      · simp [h3]
      · by_cases h4 : OVERALL_MEDIUM_RISK_COUNT_RED ≤ c.red ∨
            OVERALL_MEDIUM_RISK_SUM_YELLOW_RED ≤ c.red + c.yellow
        · simp [h3, h4]
        · simp [h3, h4]
    · by_cases h3 : OVERALL_HIGH_RISK_COUNT_RED ≤ c.red
      · simp [h3, Nat.not_lt.mpr h3]
      · by_cases h4 : OVERALL_MEDIUM_RISK_COUNT_RED ≤ c.red ∨
            OVERALL_MEDIUM_RISK_SUM_YELLOW_RED ≤ c.red + c.yellow
        · simp [h3, h4, Nat.not_le.mp h3]
        · simp [h3, h4]
    · by_cases h3 : OVERALL_HIGH_RISK_COUNT_RED ≤ c.red
      · have : ¬ (c.red < OVERALL_MEDIUM_RISK_COUNT_RED) := by
          unfold OVERALL_HIGH_RISK_COUNT_RED at h3
          unfold OVERALL_MEDIUM_RISK_COUNT_RED
          omega
        simp [h3, this]
      · by_cases h4 : OVERALL_MEDIUM_RISK_COUNT_RED ≤ c.red ∨
            OVERALL_MEDIUM_RISK_SUM_YELLOW_RED ≤ c.red + c.yellow
        · have : ¬ (c.red < OVERALL_MEDIUM_RISK_COUNT_RED ∧
              c.red + c.yellow < OVERALL_MEDIUM_RISK_SUM_YELLOW_RED) := by
            rintro ⟨ha, hb⟩
            rcases h4 with h4 | h4
            · exact absurd h4 (Nat.not_le.mpr ha)
            · exact absurd h4 (Nat.not_le.mpr hb)
          simp [h3, h4, this]
        · push_neg at h4
          simp [h3, Nat.not_le.mpr h4.1, Nat.not_le.mpr h4.2, h4.1, h4.2]
    · push_cast
      ring_nf
    · apply div_nonneg _ (le_of_lt hden)
      positivity
    · rw [div_le_one hden]
      push_cast
      linarith

/-- **C7 witness** The amended aggregator theorem applied at concrete counts:
no conclusive indicators (only N/A) yields nothing; counts (High 2, Medium 1,
Low 4) yield a defined verdict and a score in `[0,1]`. -/
theorem aggregator_totality_amended_witness :
    overallRiskAssessment ⟨0, 0, 0, 7⟩ = none ∧
    (∃ v s, overallRiskAssessment ⟨2, 1, 4, 0⟩ = some (v, s) ∧
      (v = OverallVerdict.high ↔ OVERALL_HIGH_RISK_COUNT_RED ≤ 2) ∧
      (v = OverallVerdict.medium ↔ 2 < OVERALL_HIGH_RISK_COUNT_RED ∧
        (OVERALL_MEDIUM_RISK_COUNT_RED ≤ 2 ∨
         OVERALL_MEDIUM_RISK_SUM_YELLOW_RED ≤ 2 + 1)) ∧
      (v = OverallVerdict.low ↔ 2 < OVERALL_MEDIUM_RISK_COUNT_RED ∧
        2 + 1 < OVERALL_MEDIUM_RISK_SUM_YELLOW_RED) ∧
      s = (2 * 2 + 1 : ℚ) / (2 * (4 + 1 + 2)) ∧ 0 ≤ s ∧ s ≤ 1) :=
  ⟨(aggregator_totality_amended ⟨0, 0, 0, 7⟩).1 rfl,
   (aggregator_totality_amended ⟨2, 1, 4, 0⟩).2 (by decide)⟩

/-! ## C8: insufficient-history soft skip -/

/-- **C8** Insufficient-history soft skip: each rolling-metric computation
invoked with fewer raw points than its minimum history requirement — 350
daily points for Pi Cycle, 200 weekly buckets for the 200WMA, one price row
plus one supply snapshot for S2F, 365 daily points for Puell — performs no
write at all (the derived tables are returned unchanged) and reports an
insufficient-history skip as an ordinary value rather than raising. -/
theorem insufficient_history_soft_skip
    (pPi : List ℚ) (daily : List (Nat × ℚ)) (pS2F : List (Nat × ℚ))
    (supply : Option ℚ) (pPuell : List ℚ) (db : DerivedTables) (powModel : ℚ → ℚ)
    (hPi : pPi.length < 350)
    (hW : (weeklySeries daily).length < 200)
    (hS2F : pS2F = [] ∨ supply = none)
    (hPuell : pPuell.length < 365) :
    ((calculate_pi_cycle_top pPi db).1 = db ∧
      (calculate_pi_cycle_top pPi db).2.isInsufficientHistory = true) ∧
    ((calculate_200wma daily db).1 = db ∧
      (calculate_200wma daily db).2.isInsufficientHistory = true) ∧
    ((calculate_s2f_model powModel pS2F supply db).1 = db ∧
      (calculate_s2f_model powModel pS2F supply db).2.isInsufficientHistory = true) ∧
    ((calculate_puell_multiple_alternative pPuell db).1 = db ∧
      (calculate_puell_multiple_alternative pPuell db).2.isInsufficientHistory = true) := by
  refine ⟨?_, ?_, ?_, ?_⟩
  · rw [calculate_pi_cycle_top, if_pos hPi]
    exact ⟨rfl, rfl⟩
  · rw [calculate_200wma]
    by_cases h14 : daily.length < 1400
    · rw [if_pos h14]
      exact ⟨rfl, rfl⟩
    · rw [if_neg h14]
      simp [hW, CalcReport.isInsufficientHistory]
  · rcases hS2F with h | h
    · subst h
      exact ⟨rfl, rfl⟩
    · subst h
      rcases pS2F with _ | ⟨dp, rest⟩
      · exact ⟨rfl, rfl⟩
      · exact ⟨rfl, rfl⟩
  · rw [calculate_puell_multiple_alternative, if_pos hPuell]
    exact ⟨rfl, rfl⟩

/-- **C8 witness** The skip theorem applied to empty inputs: every metric is
skipped and the derived tables are untouched. -/
theorem insufficient_history_soft_skip_witness :
    ((calculate_pi_cycle_top [] ⟨[], [], [], []⟩).1 = ⟨[], [], [], []⟩ ∧
      (calculate_pi_cycle_top [] ⟨[], [], [], []⟩).2.isInsufficientHistory = true) ∧
    ((calculate_200wma [] ⟨[], [], [], []⟩).1 = ⟨[], [], [], []⟩ ∧
      (calculate_200wma [] ⟨[], [], [], []⟩).2.isInsufficientHistory = true) ∧
    ((calculate_s2f_model (fun q => q) [] none ⟨[], [], [], []⟩).1 = ⟨[], [], [], []⟩ ∧
      (calculate_s2f_model (fun q => q) [] none ⟨[], [], [], []⟩).2.isInsufficientHistory = true) ∧
    ((calculate_puell_multiple_alternative [] ⟨[], [], [], []⟩).1 = ⟨[], [], [], []⟩ ∧
      (calculate_puell_multiple_alternative [] ⟨[], [], [], []⟩).2.isInsufficientHistory = true) :=
  insufficient_history_soft_skip [] [] [] none [] ⟨[], [], [], []⟩ (fun q => q)
    (by decide) (by decide) (Or.inl rfl) (by decide)

/-! ## Rolling-window characterizations -/

/-- `piEntry` in closed form: a row exists exactly from index 349 on (both
windows full), carrying the two window means and the signal. -/
theorem piEntry_eq (p : List ℚ) (i : Nat) :
    piEntry p i = if 349 ≤ i then
      some ⟨p.getD i 0, ((p.drop (i + 1 - 111)).take 111).sum / (111 : ℕ),
        2 * (((p.drop (i + 1 - 350)).take 350).sum / (350 : ℕ)),
        if 2 * (((p.drop (i + 1 - 350)).take 350).sum / (350 : ℕ)) ≤
            ((p.drop (i + 1 - 111)).take 111).sum / (111 : ℕ)
        then piCrossedLabel else piNeutralLabel⟩
    else none := by
  by_cases h : 349 ≤ i
  · have h111 : 111 ≤ i + 1 := by omega
    have h350 : 350 ≤ i + 1 := by omega
    simp only [piEntry, rollingMeanAt, if_pos h111, if_pos h350, if_pos h]
  · have h350 : ¬ 350 ≤ i + 1 := by omega
    by_cases h111 : 111 ≤ i + 1
    · simp only [piEntry, rollingMeanAt, if_pos h111, if_neg h350, if_neg h]
    · simp only [piEntry, rollingMeanAt, if_neg h111, if_neg h350, if_neg h]

/-- The persisted Pi Cycle table in closed form. -/
theorem piCycleRows_eq (p : List ℚ) :
    piCycleRows p = (List.range' 349 (p.length - 349)).map (fun i =>
      ⟨p.getD i 0, ((p.drop (i + 1 - 111)).take 111).sum / (111 : ℕ),
        2 * (((p.drop (i + 1 - 350)).take 350).sum / (350 : ℕ)),
        if 2 * (((p.drop (i + 1 - 350)).take 350).sum / (350 : ℕ)) ≤
            ((p.drop (i + 1 - 111)).take 111).sum / (111 : ℕ)
        then piCrossedLabel else piNeutralLabel⟩) :=
  filterMap_range_guard 349 _ _ p.length (fun i _ => piEntry_eq p i)

/-- Over a positive price series the Puell 365-day issuance average is
positive wherever its window is full. -/
theorem puell_ma_pos (p : List ℚ) (hpos : ∀ x ∈ p, 0 < x) (i : Nat)
    (hi : i < p.length) (h365 : 365 ≤ i + 1) :
    0 < (((p.map (fun x => daily_issuance_btc * x)).drop (i + 1 - 365)).take 365).sum := by
  apply List.sum_pos
  · intro a ha
    have ha2 := List.drop_subset _ _ (List.take_subset _ _ ha)
    obtain ⟨x, hx, rfl⟩ := List.mem_map.mp ha2
    have hx0 := hpos x hx
    have hb : (0 : ℚ) < daily_issuance_btc := by norm_num [daily_issuance_btc]
    positivity
  · apply List.ne_nil_of_length_pos
    rw [List.length_take, List.length_drop, List.length_map]
    omega

/-- `puellEntry` in closed form over a positive price series: a row exists
exactly from index 364 on, and its multiple is the finite quotient by the
(positive) 365-day average. -/
theorem puellEntry_eq_of_pos (p : List ℚ) (hpos : ∀ x ∈ p, 0 < x) (i : Nat)
    (hi : i < p.length) :
    puellEntry p i = if 364 ≤ i then
      some ⟨p.getD i 0, daily_issuance_btc * p.getD i 0,
        (((p.map (fun x => daily_issuance_btc * x)).drop (i + 1 - 365)).take 365).sum / (365 : ℕ),
        .fin ((daily_issuance_btc * p.getD i 0) /
          ((((p.map (fun x => daily_issuance_btc * x)).drop (i + 1 - 365)).take 365).sum / (365 : ℕ)))⟩
    else none := by
  by_cases h : 364 ≤ i
  · have h365 : 365 ≤ i + 1 := by omega
    have hma : (0 : ℚ) <
        (((p.map (fun x => daily_issuance_btc * x)).drop (i + 1 - 365)).take 365).sum
          / ((365 : ℕ) : ℚ) := by
      apply div_pos (puell_ma_pos p hpos i hi h365)
      norm_num
    simp only [puellEntry, rollingMeanAt, if_pos h365, extDiv, if_neg (ne_of_gt hma), if_pos h]
    simp
  · have h365 : ¬ 365 ≤ i + 1 := by omega
    simp only [puellEntry, rollingMeanAt, if_neg h365, extDiv, if_neg h]

/-- The persisted Puell table in closed form over positive prices. -/
theorem puellRows_eq_of_pos (p : List ℚ) (hpos : ∀ x ∈ p, 0 < x) :
    puellRows p = (List.range' 364 (p.length - 364)).map (fun i =>
      ⟨p.getD i 0, daily_issuance_btc * p.getD i 0,
        (((p.map (fun x => daily_issuance_btc * x)).drop (i + 1 - 365)).take 365).sum / (365 : ℕ),
        .fin ((daily_issuance_btc * p.getD i 0) /
          ((((p.map (fun x => daily_issuance_btc * x)).drop (i + 1 - 365)).take 365).sum / (365 : ℕ)))⟩) :=
  filterMap_range_guard 364 _ _ p.length (fun i hi => puellEntry_eq_of_pos p hpos i hi)

/-- A 350-day synthetic series: 349 zero prices then a single spike. -/
def piCrossPrices : List ℚ := List.replicate 349 0 ++ [1]

/-- On the synthetic spike series the Pi Cycle recompute persists exactly one
row, crossed, with the long signal string of src/formulas.py line 52. -/
theorem piCrossPrices_rows :
    piCycleRows piCrossPrices = [⟨1, 1/111, 1/175, piCrossedLabel⟩] := by
  have hlen : piCrossPrices.length = 350 := by
    rw [piCrossPrices, List.length_append, List.length_replicate]
    rfl
  have hdrop239 : piCrossPrices.drop 239 = List.replicate 110 0 ++ [1] := by
    rw [piCrossPrices,
      List.drop_append_of_le_length (by simp only [List.length_replicate]; norm_num),
      List.drop_replicate]
  have hsum111 : ((piCrossPrices.drop 239).take 111).sum = 1 := by
    rw [hdrop239,
      List.take_of_length_le (by
        simp only [List.length_append, List.length_replicate, List.length_cons,
          List.length_nil]
        norm_num),
      List.sum_append, List.sum_replicate]
    simp only [smul_zero, zero_add, List.sum_cons, List.sum_nil, add_zero]
  have hsum350 : ((piCrossPrices.drop 0).take 350).sum = 1 := by
    rw [List.drop_zero, List.take_of_length_le (le_of_eq hlen), piCrossPrices,
      List.sum_append, List.sum_replicate]
    simp only [smul_zero, zero_add, List.sum_cons, List.sum_nil, add_zero]
  have hget : piCrossPrices.getD 349 0 = 1 := by
    rw [piCrossPrices, List.getD_eq_getElem?_getD,
      List.getElem?_append_right (by simp only [List.length_replicate]; norm_num)]
    simp only [List.length_replicate]
    rfl
  rw [piCycleRows_eq, hlen]
  rw [show (350 : ℕ) - 349 = 1 from rfl, show List.range' 349 1 = [349] from rfl]
  simp only [List.map_cons, List.map_nil]
  rw [show (349 : ℕ) + 1 - 111 = 239 from rfl, show (349 : ℕ) + 1 - 350 = 0 from rfl,
    hsum111, hsum350, hget]
  split_ifs with hc
  · norm_num [PiRow.mk.injEq]
  · exfalso
    apply hc
    push_cast
    norm_num

/-- A 365-day series of all-zero prices: every Puell multiple is 0/0 = NaN,
so the recompute keeps no row at all. -/
theorem puellAllZeroRows : puellRows (List.replicate 365 (0 : ℚ)) = [] := by
  rw [puellRows, List.filterMap_eq_nil_iff]
  intro i hi
  rw [List.length_replicate, List.mem_range] at hi
  by_cases h365 : 365 ≤ i + 1
  · have hi364 : i = 364 := by omega
    subst hi364
    have hget : (List.replicate 365 (0 : ℚ)).getD 364 0 = 0 := by
      rw [List.getD_eq_getElem?_getD, List.getElem?_replicate, if_pos (by norm_num)]
      rfl
    have hsum : ((((List.replicate 365 (0 : ℚ)).map
        (fun x => daily_issuance_btc * x)).drop 0).take 365).sum = 0 := by
      rw [List.map_replicate, List.drop_replicate, List.take_replicate, List.sum_replicate]
      simp only [mul_zero, smul_zero]
    simp only [puellEntry, rollingMeanAt, if_pos h365]
    rw [show (364 : ℕ) + 1 - 365 = 0 from rfl, hsum, hget, mul_zero, zero_div]
    simp only [extDiv]
    norm_num
  · simp only [puellEntry, rollingMeanAt, if_neg h365, extDiv]

/-- A 365-day series whose first price is −364 followed by 364 ones: at the
last day the 365-day issuance average is exactly zero while the day's
issuance is 450, so the stored Puell multiple is +∞. -/
def puellZeroAvgPrices : List ℚ := (-364 : ℚ) :: List.replicate 364 1

/-- The Puell recompute on `puellZeroAvgPrices` stores exactly one row,
carrying a zero moving average and an infinite multiple. -/
theorem puellZeroAvgPrices_rows :
    puellRows puellZeroAvgPrices = [⟨1, 450, 0, ExtQ.posInf⟩] := by
  have hlen : puellZeroAvgPrices.length = 365 := by
    rw [puellZeroAvgPrices, List.length_cons, List.length_replicate]
  have hsum : ((((puellZeroAvgPrices.map
      (fun x => daily_issuance_btc * x)).drop 0).take 365)).sum = 0 := by
    rw [List.drop_zero, List.take_of_length_le (by rw [List.length_map, hlen]),
      puellZeroAvgPrices, List.map_cons, List.map_replicate, List.sum_cons,
      List.sum_replicate, daily_issuance_btc]
    norm_num
  have hget : puellZeroAvgPrices.getD 364 0 = 1 := by
    rw [puellZeroAvgPrices, show (364 : ℕ) = 363 + 1 from rfl, List.getD_cons_succ,
      List.getD_eq_getElem?_getD, List.getElem?_replicate, if_pos (by norm_num)]
    rfl
  have hf : ∀ i, i < puellZeroAvgPrices.length → puellEntry puellZeroAvgPrices i =
      if 364 ≤ i then some ((fun _ => (⟨1, 450, 0, ExtQ.posInf⟩ : PuellRow)) i) else none := by
    intro i hi
    rw [hlen] at hi
    by_cases h : 364 ≤ i
    · have hi364 : i = 364 := by omega
      subst hi364
      have h365 : 365 ≤ 364 + 1 := by norm_num
      simp only [puellEntry, rollingMeanAt, if_pos h365]
      rw [show (364 : ℕ) + 1 - 365 = 0 from rfl, hsum, hget, zero_div]
      rw [show daily_issuance_btc * (1 : ℚ) = 450 by rw [daily_issuance_btc]; norm_num]
      simp only [extDiv]
      norm_num
    · have h365 : ¬ 365 ≤ i + 1 := by omega
      simp only [puellEntry, rollingMeanAt, if_neg h365, extDiv, if_neg h]
  have hchar := filterMap_range_guard 364 (fun _ => (⟨1, 450, 0, ExtQ.posInf⟩ : PuellRow))
    (puellEntry puellZeroAvgPrices) puellZeroAvgPrices.length hf
  rw [puellRows, hchar, hlen]
  rfl

/-! ## C3: window completeness (corrected) -/

/-- **C3 counterexample** On the all-zero series of length 365 the Puell
recompute keeps 0 rows, not the claimed `max(0, L − W + 1) = 1`: the single
full-window day has a 0/0 multiple (NaN) and is dropped. -/
theorem window_completeness_counterexample :
    (List.replicate 365 (0 : ℚ)).length = 365 ∧
    (puellRows (List.replicate 365 (0 : ℚ))).length = 0 ∧
    (365 : ℕ) - 365 + 1 = 1 := by
  refine ⟨by rw [List.length_replicate], ?_, rfl⟩
  rw [puellAllZeroRows]
  rfl

/-- **C3 (amended)** Window completeness: for a raw series of length
`L ≥ 350` the persisted Pi Cycle table has exactly `L − 350 + 1` rows, the
first row's (doubled) 350-day average is twice the mean of the first 350 raw
prices and its 111-day average is the mean of raw prices 239..349, and every
persisted row's averages are full-window means (no partial windows).  For the
Puell table the analogous count `L − 365 + 1` and first-row 365-day average
hold for positive price series (on series where a full 365-day issuance
window sums to zero with zero issuance on the day, additional rows are
dropped as NaN, so the count can be smaller). -/
theorem window_completeness (p : List ℚ) (h350 : 350 ≤ p.length)
    (h365 : 365 ≤ p.length) (hpos : ∀ x ∈ p, 0 < x) :
    (piCycleRows p).length = p.length - 349 ∧
    (puellRows p).length = p.length - 364 ∧
    (∃ r, (piCycleRows p).head? = some r ∧
      r.sma_350_doubled = 2 * ((p.take 350).sum / 350) ∧
      r.sma_111 = ((p.drop 239).take 111).sum / 111) ∧
    (∃ r, (puellRows p).head? = some r ∧
      r.daily_issuance_usd_365d_ma =
        ((p.map (fun x => daily_issuance_btc * x)).take 365).sum / 365) ∧
    (∀ r ∈ piCycleRows p, ∃ i, 349 ≤ i ∧ i < p.length ∧
      r.sma_111 = ((p.drop (i + 1 - 111)).take 111).sum / 111 ∧
      r.sma_350_doubled = 2 * (((p.drop (i + 1 - 350)).take 350).sum / 350)) := by
  refine ⟨?_, ?_, ?_, ?_, ?_⟩
  · rw [piCycleRows_eq]
    simp only [List.length_map, List.length_range']
  · rw [puellRows_eq_of_pos p hpos]
    simp only [List.length_map, List.length_range']
  · rw [piCycleRows_eq]
    have h1 : p.length - 349 = (p.length - 350) + 1 := by omega
    rw [h1, List.range'_succ, List.map_cons, List.head?_cons]
    refine ⟨_, rfl, ?_, ?_⟩
    · rw [show (349 : ℕ) + 1 - 350 = 0 from rfl, List.drop_zero]
      norm_num
    · rw [show (349 : ℕ) + 1 - 111 = 239 from rfl]
      norm_num
  · rw [puellRows_eq_of_pos p hpos]
    have h1 : p.length - 364 = (p.length - 365) + 1 := by omega
    rw [h1, List.range'_succ, List.map_cons, List.head?_cons]
    refine ⟨_, rfl, ?_⟩
    rw [show (364 : ℕ) + 1 - 365 = 0 from rfl, List.drop_zero]
    norm_num
  · intro r hr
    rw [piCycleRows_eq] at hr
    obtain ⟨i, hi, rfl⟩ := List.mem_map.mp hr
    rw [List.mem_range'_1] at hi
    refine ⟨i, hi.1, by omega, by norm_num, by norm_num⟩

/-- **C3 witness** The amended theorem applied to a constant positive series
of 365 points: the Pi Cycle table has 16 rows, the Puell table 1 row, and the
first-row averages are the full-window means. -/
theorem window_completeness_witness :
    (piCycleRows (List.replicate 365 (1 : ℚ))).length = (List.replicate 365 (1 : ℚ)).length - 349 ∧
    (puellRows (List.replicate 365 (1 : ℚ))).length = (List.replicate 365 (1 : ℚ)).length - 364 ∧
    (∃ r, (piCycleRows (List.replicate 365 (1 : ℚ))).head? = some r ∧
      r.sma_350_doubled = 2 * (((List.replicate 365 (1 : ℚ)).take 350).sum / 350) ∧
      r.sma_111 = (((List.replicate 365 (1 : ℚ)).drop 239).take 111).sum / 111) ∧
    (∃ r, (puellRows (List.replicate 365 (1 : ℚ))).head? = some r ∧
      r.daily_issuance_usd_365d_ma =
        (((List.replicate 365 (1 : ℚ)).map (fun x => daily_issuance_btc * x)).take 365).sum / 365) ∧
    (∀ r ∈ piCycleRows (List.replicate 365 (1 : ℚ)), ∃ i, 349 ≤ i ∧
      i < (List.replicate 365 (1 : ℚ)).length ∧
      r.sma_111 = (((List.replicate 365 (1 : ℚ)).drop (i + 1 - 111)).take 111).sum / 111 ∧
      r.sma_350_doubled =
        2 * ((((List.replicate 365 (1 : ℚ)).drop (i + 1 - 350)).take 350).sum / 350)) :=
  window_completeness (List.replicate 365 (1 : ℚ))
    (by rw [List.length_replicate]; norm_num)
    (by rw [List.length_replicate])
    (by intro x hx; rw [List.eq_of_mem_replicate hx]; norm_num)

/-! ## C4: Pi Cycle per-row signal (corrected) -/

/-- **C4 counterexample** A persisted Pi Cycle row whose `sma_111` is at or
above `sma_350_doubled` stores the signal string
`"High Risk (111DMA >= 350DMA*2 - CROSSED)"`, which is not the claimed
`"High Risk (CROSSED)"`. -/
theorem pi_cycle_signal_counterexample :
    piCycleRows piCrossPrices = [⟨1, 1/111, 1/175, piCrossedLabel⟩] ∧
    (1 : ℚ) / 175 ≤ 1 / 111 ∧
    piCrossedLabel ≠ "High Risk (CROSSED)" :=
  ⟨piCrossPrices_rows, by norm_num, by decide⟩

/-- **C4 (amended)** Pi Cycle per-row signal: every persisted row (both
averages defined) stores the signal
`"High Risk (111DMA >= 350DMA*2 - CROSSED)"` exactly when
`sma_111 ≥ sma_350_doubled` for that row, and `"Neutral"` otherwise; in
particular on a series where the comparison first holds at a known index and
stays, the signal flips there and never reverts.  (The stored string differs
from the claim's `"High Risk (CROSSED)"`, which is only the dashboard's
re-derived display label.) -/
theorem pi_cycle_signal_amended (p : List ℚ) (r : PiRow) (hr : r ∈ piCycleRows p) :
    (r.signal = piCrossedLabel ↔ r.sma_350_doubled ≤ r.sma_111) ∧
    (r.signal = piNeutralLabel ↔ r.sma_111 < r.sma_350_doubled) ∧
    piCrossedLabel ≠ "High Risk (CROSSED)" := by
  have hne : piCrossedLabel ≠ piNeutralLabel := by decide
  have hne2 : piNeutralLabel ≠ piCrossedLabel := by decide
  rw [piCycleRows_eq] at hr
  obtain ⟨i, hi, rfl⟩ := List.mem_map.mp hr
  by_cases hc : 2 * (((p.drop (i + 1 - 350)).take 350).sum / ((350 : ℕ) : ℚ)) ≤
      ((p.drop (i + 1 - 111)).take 111).sum / ((111 : ℕ) : ℚ)
  · rw [if_pos hc]
    exact ⟨iff_of_true rfl hc, iff_of_false hne (not_lt.mpr hc), by decide⟩
  · rw [if_neg hc]
    exact ⟨iff_of_false hne2 hc, iff_of_true rfl (lt_of_not_le hc), by decide⟩

/-- **C4 witness** The amended per-row signal theorem applied to the single
persisted row of the synthetic spike series. -/
theorem pi_cycle_signal_amended_witness :
    ((⟨1, 1/111, 1/175, piCrossedLabel⟩ : PiRow).signal = piCrossedLabel ↔
      (⟨1, 1/111, 1/175, piCrossedLabel⟩ : PiRow).sma_350_doubled ≤
        (⟨1, 1/111, 1/175, piCrossedLabel⟩ : PiRow).sma_111) ∧
    ((⟨1, 1/111, 1/175, piCrossedLabel⟩ : PiRow).signal = piNeutralLabel ↔
      (⟨1, 1/111, 1/175, piCrossedLabel⟩ : PiRow).sma_111 <
        (⟨1, 1/111, 1/175, piCrossedLabel⟩ : PiRow).sma_350_doubled) ∧
    piCrossedLabel ≠ "High Risk (CROSSED)" :=
  pi_cycle_signal_amended piCrossPrices ⟨1, 1/111, 1/175, piCrossedLabel⟩
    (by rw [piCrossPrices_rows]; exact List.mem_singleton.mpr rfl)

/-! ## C9: Puell division guard (corrected) -/

/-- **C9 counterexample** On `puellZeroAvgPrices` the last day has a defined
365-day issuance average equal to zero and issuance 450: the code stores that
row with `puell_multiple = +∞` instead of omitting it, contradicting "no row
stored with an infinite value" — though, as claimed, no exception is
raised. -/
theorem puell_division_guard_counterexample :
    puellRows puellZeroAvgPrices = [⟨1, 450, 0, ExtQ.posInf⟩] ∧
    (⟨1, 450, 0, ExtQ.posInf⟩ : PuellRow).daily_issuance_usd_365d_ma = 0 ∧
    (⟨1, 450, 0, ExtQ.posInf⟩ : PuellRow).puell_multiple = ExtQ.posInf :=
  ⟨puellZeroAvgPrices_rows, rfl, rfl⟩

/-- **C9 (amended)** Puell division guard: a day's row is omitted exactly
when its 365-day issuance average is undefined (partial window) or the
average and the issuance are both zero (pandas 0/0 = NaN); a day with a
defined nonzero average is stored with the finite quotient
`daily_issuance_usd / daily_issuance_usd_365d_ma`; a day with a defined
*zero* average and nonzero issuance is stored with a signed infinity rather
than omitted.  No case raises an exception. -/
theorem puell_division_guard_amended (p : List ℚ) (i : Nat) (hi : i < p.length) :
    (puellEntry p i = none ↔
      (rollingMeanAt 365 (p.map (fun x => daily_issuance_btc * x)) i = none ∨
       (rollingMeanAt 365 (p.map (fun x => daily_issuance_btc * x)) i = some 0 ∧
        daily_issuance_btc * p.getD i 0 = 0))) ∧
    (∀ r, puellEntry p i = some r → r ∈ puellRows p ∧
      ((r.daily_issuance_usd_365d_ma ≠ 0 ∧
        r.puell_multiple = ExtQ.fin (r.daily_issuance_usd / r.daily_issuance_usd_365d_ma)) ∨
       (r.daily_issuance_usd_365d_ma = 0 ∧ r.daily_issuance_usd ≠ 0 ∧
        (r.puell_multiple = ExtQ.posInf ∨ r.puell_multiple = ExtQ.negInf)))) := by
  constructor
  · cases hma : rollingMeanAt 365 (p.map (fun x => daily_issuance_btc * x)) i with
    | none =>
      simp only [puellEntry, hma, extDiv]
      simp
    | some m =>
      by_cases hm : m = 0
      · subst hm
        by_cases ha : daily_issuance_btc * p.getD i 0 = 0
        · simp only [puellEntry, hma, extDiv, ha, if_pos rfl]
          simp
        · by_cases hpos0 : 0 < daily_issuance_btc * p.getD i 0
          · simp only [puellEntry, hma, extDiv, if_pos rfl, if_neg ha, if_pos hpos0]
            refine iff_of_false (by simp) ?_
            rintro (h | ⟨-, h⟩)
            · cases h
            · exact ha h
          · simp only [puellEntry, hma, extDiv, if_pos rfl, if_neg ha, if_neg hpos0]
            refine iff_of_false (by simp) ?_
            rintro (h | ⟨-, h⟩)
            · cases h
            · exact ha h
      · simp only [puellEntry, hma, extDiv, if_neg hm]
        simp [hm]
  · intro r hr
    refine ⟨by rw [puellRows]; exact List.mem_filterMap.mpr ⟨i, List.mem_range.mpr hi, hr⟩, ?_⟩
    simp only [puellEntry] at hr
    cases hma : rollingMeanAt 365 (p.map (fun x => daily_issuance_btc * x)) i with
    | none =>
      rw [hma] at hr
      simp only [extDiv] at hr
      cases hr
    | some m =>
      rw [hma] at hr
      by_cases hm : m = 0
      · subst hm
        by_cases ha : daily_issuance_btc * p.getD i 0 = 0
        · simp only [extDiv, ha, if_pos rfl] at hr
          cases hr
        · by_cases hpos0 : 0 < daily_issuance_btc * p.getD i 0
          · simp only [extDiv, if_pos rfl, if_neg ha, if_pos hpos0] at hr
            obtain rfl := Option.some.inj hr
            right
            exact ⟨by simp, ha, Or.inl rfl⟩
          · simp only [extDiv, if_pos rfl, if_neg ha, if_neg hpos0] at hr
            obtain rfl := Option.some.inj hr
            right
            exact ⟨by simp, ha, Or.inr rfl⟩
      · simp only [extDiv, if_neg hm] at hr
        obtain rfl := Option.some.inj hr
        left
        exact ⟨by simpa using hm, by simp⟩

/-- **C9 witness** The amended division-guard theorem applied at the last day
of `puellZeroAvgPrices`. -/
theorem puell_division_guard_amended_witness :
    (puellEntry puellZeroAvgPrices 364 = none ↔
      (rollingMeanAt 365 (puellZeroAvgPrices.map (fun x => daily_issuance_btc * x)) 364 = none ∨
       (rollingMeanAt 365 (puellZeroAvgPrices.map (fun x => daily_issuance_btc * x)) 364
          = some 0 ∧
        daily_issuance_btc * puellZeroAvgPrices.getD 364 0 = 0))) ∧
    (∀ r, puellEntry puellZeroAvgPrices 364 = some r → r ∈ puellRows puellZeroAvgPrices ∧
      ((r.daily_issuance_usd_365d_ma ≠ 0 ∧
        r.puell_multiple = ExtQ.fin (r.daily_issuance_usd / r.daily_issuance_usd_365d_ma)) ∨
       (r.daily_issuance_usd_365d_ma = 0 ∧ r.daily_issuance_usd ≠ 0 ∧
        (r.puell_multiple = ExtQ.posInf ∨ r.puell_multiple = ExtQ.negInf)))) :=
  puell_division_guard_amended puellZeroAvgPrices 364
    (by rw [puellZeroAvgPrices, List.length_cons, List.length_replicate]; norm_num)

/-! ## Merge-engine branch lemmas -/

/-- The composite-key branch of the merge engine, spelled out. -/
theorem store_composite_branch (t df : DataFrame) (pk : List String)
    (hne : df.rows.isEmpty = false) (h2 : 1 < pk.length)
    (hpk : pk.all (fun c => df.columns.contains c) = true) :
    store_data_incrementally t df pk =
      (if ((df.rows.zip (newCompositeKeys df pk)).filterMap
          (fun rk => if (existingCompositeKeys t pk).contains rk.2 then none
            else some rk.1)).isEmpty
       then (t, df.setCol tempCol ((newCompositeKeys df pk).map Value.str), .inserted 0)
       else
         match insertProjected t
             ((df.setCol tempCol ((newCompositeKeys df pk).map Value.str)).columns.filter
               (fun c => ¬ c == tempCol))
             ((df.rows.zip (newCompositeKeys df pk)).filterMap
               (fun rk => if (existingCompositeKeys t pk).contains rk.2 then none
                 else some rk.1)) with
         | some t2 => (t2, df.setCol tempCol ((newCompositeKeys df pk).map Value.str),
             .inserted ((df.rows.zip (newCompositeKeys df pk)).filterMap
               (fun rk => if (existingCompositeKeys t pk).contains rk.2 then none
                 else some rk.1)).length)
         | none => (t, df.setCol tempCol ((newCompositeKeys df pk).map Value.str),
             .loggedError "OperationalError: table has no column named ...")) := by
  rw [store_data_incrementally.eq_def, if_neg (by simp [hne]), if_pos h2, if_pos hpk]

/-- The single-key branch of the merge engine, spelled out. -/
theorem store_single_branch (t df : DataFrame) (c : String)
    (hne : df.rows.isEmpty = false) :
    store_data_incrementally t df [c] =
      (if (existingSingleVals t c).isEmpty then
        match insertProjected t df.columns df.rows with
        | some t2 => (t2, df, .inserted df.rows.length)
        | none => (t, df, .loggedError "OperationalError: table has no column named ...")
      else
        if df.columns.contains c then
          if isDateName c then
            finishSingle t df ((df.rows.zip (newSingleVals df c)).filterMap (fun rv =>
              if (existingSingleVals t c).any (fun e => e.canon == rv.2.canon) then none
              else some rv.1))
          else if colIsNumeric (newSingleVals df c) then
            if (existingSingleVals t c).all (fun e => e.asRat?.isSome) then
              finishSingle t df ((df.rows.zip (newSingleVals df c)).filterMap (fun rv =>
                if (existingSingleVals t c).any (fun e => e.asRat? == rv.2.asRat?) then none
                else some rv.1))
            else (t, df, .loggedError "ValueError: could not convert existing keys to float")
          else
            finishSingle t df ((df.rows.zip (newSingleVals df c)).filterMap (fun rv =>
              if (existingSingleVals t c).any (fun e => e.canon == rv.2.canon) then none
              else some rv.1))
        else (t, df, .loggedError "KeyError: missing key column in batch")) := by
  rw [store_data_incrementally.eq_def, if_neg (by simp [hne]), if_neg (by simp)]

/-! ## C10: composite merge mutates the caller's batch -/

/-- **C10** A merge with more than one key column adds the helper column
`_temp_composite_pk_for_merge` to the caller's batch dataframe in place: the
returned batch carries the extra column, which is not part of the target
schema, while the target table keeps its own schema and every row written to
it has exactly the target's columns. -/
theorem composite_merge_mutates_batch (t df : DataFrame) (pk : List String)
    (h2 : 1 < pk.length)
    (hpk : pk.all (fun c => df.columns.contains c) = true)
    (htemp : df.columns.contains tempCol = false)
    (htempT : t.columns.contains tempCol = false)
    (hne : df.rows.isEmpty = false)
    (hrows_t : ∀ r ∈ t.rows, r.length = t.columns.length) :
    (store_data_incrementally t df pk).2.1.columns = df.columns ++ [tempCol] ∧
    (store_data_incrementally t df pk).2.1.columns.contains tempCol = true ∧
    t.columns.contains tempCol = false ∧
    (store_data_incrementally t df pk).1.columns = t.columns ∧
    (∀ r ∈ (store_data_incrementally t df pk).1.rows, r.length = t.columns.length) := by
  have hsetcol : (df.setCol tempCol ((newCompositeKeys df pk).map Value.str)).columns
      = df.columns ++ [tempCol] := by
    rw [DataFrame.setCol, if_neg (by rw [htemp]; simp)]
  rw [store_composite_branch t df pk hne h2 hpk]
  by_cases hins : ((df.rows.zip (newCompositeKeys df pk)).filterMap
      (fun rk => if (existingCompositeKeys t pk).contains rk.2 then none
        else some rk.1)).isEmpty
  · rw [if_pos hins]
    exact ⟨hsetcol, by rw [hsetcol]; simp, htempT, rfl, hrows_t⟩
  · rw [if_neg hins]
    cases hproj : insertProjected t
        ((df.setCol tempCol ((newCompositeKeys df pk).map Value.str)).columns.filter
          (fun c => ¬ c == tempCol))
        ((df.rows.zip (newCompositeKeys df pk)).filterMap
          (fun rk => if (existingCompositeKeys t pk).contains rk.2 then none
            else some rk.1)) with
    | none =>
      exact ⟨hsetcol, by rw [hsetcol]; simp, htempT, rfl, hrows_t⟩
    | some t2 =>
      rw [insertProjected] at hproj
      by_cases hall : (((df.setCol tempCol ((newCompositeKeys df pk).map Value.str)).columns.filter
          (fun c => ¬ c == tempCol)).all (fun c => t.columns.contains c))
      · rw [if_pos hall] at hproj
        obtain rfl := Option.some.inj hproj
        refine ⟨hsetcol, by rw [hsetcol]; simp, htempT, rfl, ?_⟩
        intro r hr
        rcases List.mem_append.mp hr with hold | hnew
        · exact hrows_t r hold
        · obtain ⟨r0, hr0, rfl⟩ := List.mem_map.mp hnew
          exact List.length_map _ _
      · rw [if_neg hall] at hproj
        cases hproj

/-- **C10 witness** The mutation theorem applied to a concrete two-key merge:
the caller's batch gains the helper column, the table keeps its schema. -/
theorem composite_merge_mutates_batch_witness :
    (store_data_incrementally ⟨["timestamp", "coin_id"], []⟩
      ⟨["timestamp", "coin_id"], [[Value.int 1, Value.str ['b']]]⟩
      ["timestamp", "coin_id"]).2.1.columns = ["timestamp", "coin_id"] ++ [tempCol] ∧
    (store_data_incrementally ⟨["timestamp", "coin_id"], []⟩
      ⟨["timestamp", "coin_id"], [[Value.int 1, Value.str ['b']]]⟩
      ["timestamp", "coin_id"]).2.1.columns.contains tempCol = true ∧
    (⟨["timestamp", "coin_id"], []⟩ : DataFrame).columns.contains tempCol = false ∧
    (store_data_incrementally ⟨["timestamp", "coin_id"], []⟩
      ⟨["timestamp", "coin_id"], [[Value.int 1, Value.str ['b']]]⟩
      ["timestamp", "coin_id"]).1.columns = (⟨["timestamp", "coin_id"], []⟩ : DataFrame).columns ∧
    (∀ r ∈ (store_data_incrementally ⟨["timestamp", "coin_id"], []⟩
      ⟨["timestamp", "coin_id"], [[Value.int 1, Value.str ['b']]]⟩
      ["timestamp", "coin_id"]).1.rows,
      r.length = (⟨["timestamp", "coin_id"], []⟩ : DataFrame).columns.length) :=
  composite_merge_mutates_batch ⟨["timestamp", "coin_id"], []⟩
    ⟨["timestamp", "coin_id"], [[Value.int 1, Value.str ['b']]]⟩ ["timestamp", "coin_id"]
    (by decide) (by decide) (by decide) (by decide) (by decide) (by decide)

/-! ## C5: malformed-batch failure (corrected) -/

/-- The raw-prices target table (schema of `crypto_prices`). -/
def pricesTable : DataFrame := ⟨["timestamp", "coin_id", "price"], []⟩

/-- A malformed batch: the declared key column `coin_id` is missing. -/
def malformedBatch : DataFrame := ⟨["timestamp", "price"], [[Value.int 1, Value.int 2]]⟩

/-- **C5 counterexample** A batch missing the declared key column `coin_id`
does not fail the call: the engine's blanket `except` catches the KeyError
and prints it, the call returns normally with nothing inserted and the table
unchanged.  No `DataIntegrityError` exists anywhere in the code, so no such
error can be surfaced to the caller. -/
theorem malformed_batch_counterexample :
    malformedBatch.columns.contains "coin_id" = false ∧
    store_data_incrementally pricesTable malformedBatch ["timestamp", "coin_id"] =
      (pricesTable, malformedBatch,
        .loggedError "KeyError: missing key columns in batch") := by decide

/-- **C5 (amended)** For every nonempty batch with a multi-column key set of
which some declared key column is missing from the batch, the merge call
completes normally: the internal KeyError is caught and logged, zero rows are
inserted, the target table and the batch are returned unchanged, and no
exception (in particular no `DataIntegrityError`, which does not exist in the
code) reaches the caller. -/
theorem malformed_batch_amended (t df : DataFrame) (pk : List String)
    (hne : df.rows.isEmpty = false) (h2 : 1 < pk.length)
    (hmiss : pk.all (fun c => df.columns.contains c) = false) :
    store_data_incrementally t df pk =
      (t, df, .loggedError "KeyError: missing key columns in batch") := by
  rw [store_data_incrementally.eq_def, if_neg (by simp [hne]), if_pos h2,
    if_neg (by rw [hmiss]; simp)]

/-- **C5 witness** The amended theorem applied to a batch missing its
`coin_id` key column against a two-key table. -/
theorem malformed_batch_amended_witness :
    store_data_incrementally ⟨["timestamp", "coin_id"], [[Value.int 7, Value.str ['e']]]⟩
      ⟨["timestamp"], [[Value.int 7]]⟩ ["timestamp", "coin_id"] =
      (⟨["timestamp", "coin_id"], [[Value.int 7, Value.str ['e']]]⟩,
       ⟨["timestamp"], [[Value.int 7]]⟩,
       .loggedError "KeyError: missing key columns in batch") :=
  malformed_batch_amended ⟨["timestamp", "coin_id"], [[Value.int 7, Value.str ['e']]]⟩
    ⟨["timestamp"], [[Value.int 7]]⟩ ["timestamp", "coin_id"]
    (by decide) (by decide) (by decide)

/-! ## C2: composite-key uniqueness under separator collisions (corrected) -/

/-- A table whose one row has key tuple `("a", "_b")`. -/
def sepCollisionTable : DataFrame := ⟨["k1", "k2"], [[Value.str ['a'], Value.str ['_', 'b']]]⟩

/-- A batch whose one row has the distinct key tuple `("a_", "b")`. -/
def sepCollisionBatch : DataFrame := ⟨["k1", "k2"], [[Value.str ['a', '_'], Value.str ['b']]]⟩

/-- **C2 counterexample** The key tuples `("a", "_b")` and `("a_", "b")` are
distinct and concatenate to the same string; because a key field contains the
separator, both `'_'.join` composite keys are `"a__b"`, so the merge treats
them as the same key: the batch row is suppressed (0 rows inserted, table
unchanged) even though its tuple is absent from the table. -/
theorem separator_collision_counterexample :
    ([Value.str ['a'], Value.str ['_', 'b']] ≠ [Value.str ['a', '_'], Value.str ['b']]) ∧
    (['a'] ++ ['_', 'b'] = ['a', '_'] ++ ['b']) ∧
    store_data_incrementally sepCollisionTable sepCollisionBatch ["k1", "k2"] =
      (sepCollisionTable,
       ⟨["k1", "k2", tempCol],
        [[Value.str ['a', '_'], Value.str ['b'], Value.str ['a', '_', '_', 'b']]]⟩,
       .inserted 0) := by decide

/-- Two separator-free prefixes followed by the separator character cancel:
the first `'_'` fixes the split point. -/
theorem append_sep_cancel :
    ∀ (a b x y : List Char), '_' ∉ a → '_' ∉ b →
      a ++ '_' :: x = b ++ '_' :: y → a = b ∧ x = y := by
  intro a
  induction a with
  | nil =>
    intro b x y _ hb h
    cases b with
    | nil => simpa using h
    | cons d bs =>
      simp only [List.nil_append, List.cons_append, List.cons.injEq] at h
      exact absurd (h.1 ▸ List.mem_cons_self d bs) hb
  | cons c as ih =>
    intro b x y ha hb h
    cases b with
    | nil =>
      simp only [List.cons_append, List.nil_append, List.cons.injEq] at h
      exact absurd (h.1 ▸ List.mem_cons_self c as) ha
  
    | cons d bs =>
      simp only [List.cons_append, List.cons.injEq] at h
      obtain ⟨rfl, h2⟩ := h
      obtain ⟨hab, hxy⟩ := ih bs x y (fun hm => ha (List.mem_cons_of_mem _ hm))
        (fun hm => hb (List.mem_cons_of_mem _ hm)) h2
      exact ⟨by rw [hab], hxy⟩

/-- `'_'.join` is injective on equal-length lists of separator-free parts. -/
theorem joinSep_inj :
    ∀ (p1 p2 : List (List Char)), p1.length = p2.length →
      (∀ s ∈ p1, '_' ∉ s) → (∀ s ∈ p2, '_' ∉ s) →
      joinSep p1 = joinSep p2 → p1 = p2 := by
  intro p1
  induction p1 with
  | nil =>
    intro p2 hlen _ _ _
    cases p2 with
    | nil => rfl
    | cons b bs => simp at hlen
  | cons a p1t ih =>
    intro p2 hlen h1 h2 heq
    cases p2 with
    | nil => simp at hlen
    | cons b p2t =>
      cases p1t with
      | nil =>
        cases p2t with
        | nil =>
          have hab : a = b := heq
          rw [hab]
        | cons q2 p2tt => simp at hlen
      | cons q1 p1tt =>
        cases p2t with
        | nil => simp at hlen
        | cons q2 p2tt =>
          have heq2 : a ++ '_' :: joinSep (q1 :: p1tt) = b ++ '_' :: joinSep (q2 :: p2tt) := heq
          obtain ⟨hab, h3⟩ := append_sep_cancel a b _ _ (h1 a (by simp)) (h2 b (by simp)) heq2
          have hrest := ih (q2 :: p2tt) (by simpa using hlen)
            (fun s hs => h1 s (List.mem_cons_of_mem _ hs))
            (fun s hs => h2 s (List.mem_cons_of_mem _ hs)) h3
          rw [hab, hrest]

/-- **C2 (amended)** Separator-free composite keys are collision-free: if
every key field's canonical text (in the incoming row and in every stored
row) avoids the separator `'_'`, then a row whose canonical key tuple differs
from every stored row's tuple is never suppressed — its composite key is not
among the existing composite keys, which is exactly the suppression test of
`store_data_incrementally`.  (When a key field contains `'_'`, distinct
tuples can collide, as the counterexample shows.) -/
theorem composite_key_separator_free (t df : DataFrame) (pk : List String)
    (r : List Value)
    (hfree_r : ∀ c ∈ pk, '_' ∉ ((getVal df.columns r c).getD Value.null).canon)
    (hfree_t : ∀ rt ∈ t.rows, ∀ c ∈ pk, '_' ∉ ((getVal t.columns rt c).getD Value.null).canon)
    (hdist : ∀ rt ∈ t.rows,
      pk.map (fun c => ((getVal df.columns r c).getD Value.null).canon) ≠
        pk.map (fun c => ((getVal t.columns rt c).getD Value.null).canon)) :
    (existingCompositeKeys t pk).contains (compositeKeyD df.columns pk r) = false := by
  rw [existingCompositeKeys]
  by_cases hsub : pk.all (fun c => t.columns.contains c)
  · rw [if_pos hsub]
    by_contra hcon
    rw [Bool.not_eq_false] at hcon
    have hmem : compositeKeyD df.columns pk r ∈ t.rows.map (compositeKeyD t.columns pk) := by
      simpa using hcon
    obtain ⟨rt, hrt, hkey⟩ := List.mem_map.mp hmem
    have hparts := joinSep_inj
      (pk.map (fun c => ((getVal t.columns rt c).getD Value.null).canon))
      (pk.map (fun c => ((getVal df.columns r c).getD Value.null).canon))
      (by simp)
      (by
        intro s hs
        obtain ⟨c, hc, rfl⟩ := List.mem_map.mp hs
        exact hfree_t rt hrt c hc)
      (by
        intro s hs
        obtain ⟨c, hc, rfl⟩ := List.mem_map.mp hs
        exact hfree_r c hc)
      hkey
    exact hdist rt hrt hparts.symm
  · rw [if_neg hsub]
    rfl

/-- **C2 witness** The amended theorem applied to separator-free keys: the
batch tuple `("a", "b")` is not suppressed by the stored tuple `("x", "y")`. -/
theorem composite_key_separator_free_witness :
    (existingCompositeKeys ⟨["k1", "k2"], [[Value.str ['x'], Value.str ['y']]]⟩
        ["k1", "k2"]).contains
      (compositeKeyD ["k1", "k2"] ["k1", "k2"] [Value.str ['a'], Value.str ['b']]) = false :=
  composite_key_separator_free ⟨["k1", "k2"], [[Value.str ['x'], Value.str ['y']]]⟩
    ⟨["k1", "k2"], []⟩ ["k1", "k2"] [Value.str ['a'], Value.str ['b']]
    (by decide) (by decide) (by decide)

/-! ## C1: merge idempotence — helper lemmas -/

/-- A filter whose every element's key is covered by `ex` keeps nothing
(second-pass composite dedup). -/
theorem filter_contains_covered {β : Type _} [BEq β] [LawfulBEq β]
    (rows : List (List Value)) (key : List Value → β) (ex : List β)
    (hcover : ∀ r ∈ rows, key r ∈ ex) :
    rows.filter (fun r => ! ex.contains (key r)) = [] := by
  rw [List.filter_eq_nil_iff]
  intro r hr
  have h := List.elem_eq_true_of_mem (hcover r hr)
  simp only [List.contains, h, Bool.not_true, Bool.false_eq_true, not_false_eq_true]

/-- A filter whose every element's comparison value is matched by some
existing value keeps nothing (second-pass single-key dedup). -/
theorem filter_any_covered {β : Type _} [BEq β] [LawfulBEq β]
    (rows : List (List Value)) (val : List Value → Value) (g : Value → β)
    (ex : List Value) (hcover : ∀ r ∈ rows, ∃ e ∈ ex, g e == g (val r)) :
    rows.filter (fun r => ! ex.any (fun e => g e == g (val r))) = [] := by
  rw [List.filter_eq_nil_iff]
  intro r hr
  obtain ⟨e, he, hbeq⟩ := hcover r hr
  have h : ex.any (fun e => g e == g (val r)) = true :=
    List.any_eq_true.mpr ⟨e, he, hbeq⟩
  simp only [h, Bool.not_true, Bool.false_eq_true, not_false_eq_true]

/-- `isEmpty` in propositional form. -/
theorem isEmpty_true_iff {α : Type _} (l : List α) : l.isEmpty = true ↔ l = [] := by
  cases l <;> simp

/-- Negated `isEmpty` in propositional form. -/
theorem isEmpty_false_iff {α : Type _} (l : List α) : l.isEmpty = false ↔ l ≠ [] := by
  cases l <;> simp

/-- The composite key ignores the appended helper column. -/
theorem compositeKeyD_append_temp (cols : List String) (pk : List String)
    (row : List Value) (c2 : String) (v2 : Value)
    (hpk : ∀ c ∈ pk, c ∈ cols) (hlen : row.length = cols.length) :
    compositeKeyD (cols ++ [c2]) pk (row ++ [v2]) = compositeKeyD cols pk row := by
  rw [compositeKeyD, compositeKeyD]
  congr 1
  apply List.map_congr_left
  intro c hc
  rw [getVal_append_left cols row [c2] [v2] c (hpk c hc) hlen]

/-- The composite key of a row projected onto the target's columns equals the
composite key of the source row. -/
theorem compositeKeyD_project (tcols : List String) (pk : List String)
    (g : String → Value) (hpk : ∀ c ∈ pk, c ∈ tcols) :
    compositeKeyD tcols pk (tcols.map g) =
      joinSep (pk.map (fun c => (g c).canon)) := by
  rw [compositeKeyD]
  congr 1
  apply List.map_congr_left
  intro c hc
  rw [getVal_map_self g tcols c (hpk c hc)]
  rfl

/-- The rows of the batch after the in-place helper-column assignment. -/
theorem setCol_append_rows (df : DataFrame) (vals : List Value)
    (htemp : tempCol ∉ df.columns) :
    (df.setCol tempCol vals) =
      ⟨df.columns ++ [tempCol], (df.rows.zip vals).map (fun rv => rv.1 ++ [rv.2])⟩ := by
  rw [DataFrame.setCol, if_neg]
  intro hcon
  exact htemp (List.mem_of_elem_eq_true hcon)

/-- A projected row reads back the source row's cell on every target
column. -/
theorem getVal_project (tcols : List String) (g : String → Value) (c : String)
    (hc : c ∈ tcols) :
    (getVal tcols (tcols.map g) c).getD Value.null = g c := by
  rw [getVal_map_self g tcols c hc]
  rfl

/-! ## C1: merging the same batch twice is idempotent -/

set_option maxHeartbeats 1000000 in
/-- **C1** Feeding the result of one `store_data_incrementally` call — the
updated table together with the (possibly mutated) batch dataframe it
returns — straight back into a second call with the same key columns inserts
zero rows and returns the table unchanged: every key of the batch is present
in the table after the first call, so the second pass deduplicates everything
away, on the composite path as well as on each single-key comparison path
(date, numeric, plain text), including the empty-table fast path and the
non-numeric-existing-keys error path. -/
theorem merge_idempotent (t df : DataFrame) (pk : List String)
    (hpkne : pk ≠ [])
    (hpk : ∀ c ∈ pk, c ∈ df.columns)
    (hcols : df.columns = t.columns)
    (htemp : tempCol ∉ df.columns)
    (hrows_df : ∀ r ∈ df.rows, r.length = df.columns.length) :
    (store_data_incrementally (store_data_incrementally t df pk).1
        (store_data_incrementally t df pk).2.1 pk).1
      = (store_data_incrementally t df pk).1 ∧
    ((store_data_incrementally (store_data_incrementally t df pk).1
        (store_data_incrementally t df pk).2.1 pk).2.2).insertedCount = 0 := by
  by_cases hne0 : df.rows.isEmpty
  · have h1 : store_data_incrementally t df pk = (t, df, .skippedEmpty) := by
      rw [store_data_incrementally.eq_def, if_pos hne0]
    rw [h1]
    show (store_data_incrementally t df pk).1 = t ∧
      (store_data_incrementally t df pk).2.2.insertedCount = 0
    rw [h1]
    exact ⟨rfl, rfl⟩
  · rw [Bool.not_eq_true] at hne0
    have hdfne : df.rows ≠ [] := (isEmpty_false_iff _).mp hne0
    have hallB : df.columns.all (fun c => t.columns.contains c) = true :=
      List.all_eq_true.mpr (fun c hc => List.elem_eq_true_of_mem (hcols ▸ hc))
    by_cases h2 : 1 < pk.length
    · -- composite-key path
      have hpkB : pk.all (fun c => df.columns.contains c) = true :=
        List.all_eq_true.mpr (fun c hc => List.elem_eq_true_of_mem (hpk c hc))
      have hpkBt : pk.all (fun c => t.columns.contains c) = true := by
        rw [← hcols]
        exact hpkB
      have hkeysT : existingCompositeKeys t pk = t.rows.map (compositeKeyD t.columns pk) := by
        rw [existingCompositeKeys, if_pos hpkBt]
      have hdf2 : df.setCol tempCol ((newCompositeKeys df pk).map Value.str) =
          ⟨df.columns ++ [tempCol],
           df.rows.map (fun r => r ++ [Value.str (compositeKeyD df.columns pk r)])⟩ := by
        rw [setCol_append_rows df _ htemp]
        congr 1
        rw [newCompositeKeys, List.map_map, zip_map_self, List.map_map]
        rfl
      have hfilt1 : ((df.rows.zip (newCompositeKeys df pk)).filterMap
          (fun rk => if (existingCompositeKeys t pk).contains rk.2 then none
            else some rk.1))
          = df.rows.filter (fun r =>
              ! (existingCompositeKeys t pk).contains (compositeKeyD df.columns pk r)) := by
        rw [newCompositeKeys]
        exact zip_map_filterMap (compositeKeyD df.columns pk)
          (fun k => (existingCompositeKeys t pk).contains k) df.rows
      have hne2 : (df.rows.map
          (fun r => r ++ [Value.str (compositeKeyD df.columns pk r)])).isEmpty = false := by
        rw [isEmpty_false_iff]
        simp [hdfne]
      have hpkB2 : pk.all (fun c => (df.columns ++ [tempCol]).contains c) = true :=
        List.all_eq_true.mpr
          (fun c hc => List.elem_eq_true_of_mem (List.mem_append_left _ (hpk c hc)))
      have hfilt2gen : ∀ (tx : DataFrame),
          (((df.rows.map (fun r => r ++ [Value.str (compositeKeyD df.columns pk r)])).zip
            (newCompositeKeys
              ⟨df.columns ++ [tempCol],
               df.rows.map (fun r => r ++ [Value.str (compositeKeyD df.columns pk r)])⟩ pk)).filterMap
            (fun rk => if (existingCompositeKeys tx pk).contains rk.2 then none
              else some rk.1))
          = (df.rows.map (fun r => r ++ [Value.str (compositeKeyD df.columns pk r)])).filter
              (fun r => ! (existingCompositeKeys tx pk).contains
                (compositeKeyD (df.columns ++ [tempCol]) pk r)) := by
        intro tx
        rw [newCompositeKeys]
        exact zip_map_filterMap (compositeKeyD (df.columns ++ [tempCol]) pk)
          (fun k => (existingCompositeKeys tx pk).contains k) _
      by_cases hemp : (df.rows.filter (fun r =>
          ! (existingCompositeKeys t pk).contains (compositeKeyD df.columns pk r))).isEmpty
      · -- nothing to insert the first time either
        have hfirst : store_data_incrementally t df pk =
            (t, ⟨df.columns ++ [tempCol],
                 df.rows.map (fun r => r ++ [Value.str (compositeKeyD df.columns pk r)])⟩,
             .inserted 0) := by
          rw [store_composite_branch t df pk hne0 h2 hpkB, hfilt1, if_pos hemp, hdf2]
        have hcov : ∀ r2 ∈ df.rows.map
            (fun r => r ++ [Value.str (compositeKeyD df.columns pk r)]),
            compositeKeyD (df.columns ++ [tempCol]) pk r2 ∈ existingCompositeKeys t pk := by
          intro r2 hr2
          obtain ⟨r, hr, rfl⟩ := List.mem_map.mp hr2
          rw [compositeKeyD_append_temp df.columns pk r tempCol _ hpk (hrows_df r hr)]
          have hsupp := List.filter_eq_nil_iff.mp ((isEmpty_true_iff _).mp hemp) r hr
          rw [Bool.not_eq_true', Bool.not_eq_false] at hsupp
          exact List.mem_of_elem_eq_true hsupp
        have hfilt2nil : ((df.rows.map
            (fun r => r ++ [Value.str (compositeKeyD df.columns pk r)])).filter
            (fun r => ! (existingCompositeKeys t pk).contains
              (compositeKeyD (df.columns ++ [tempCol]) pk r))) = [] :=
          filter_contains_covered _ _ _ hcov
        rw [hfirst]
        show (store_data_incrementally t
            ⟨df.columns ++ [tempCol],
             df.rows.map (fun r => r ++ [Value.str (compositeKeyD df.columns pk r)])⟩ pk).1 = t ∧
          (store_data_incrementally t
            ⟨df.columns ++ [tempCol],
             df.rows.map (fun r => r ++ [Value.str (compositeKeyD df.columns pk r)])⟩ pk).2.2.insertedCount = 0
        rw [store_composite_branch _ _ pk hne2 h2 hpkB2, hfilt2gen t, hfilt2nil]
        exact ⟨rfl, rfl⟩
      · -- some rows are inserted the first time
        rw [Bool.not_eq_true] at hemp
        have horig2 : ((df.setCol tempCol ((newCompositeKeys df pk).map Value.str)).columns.filter
            (fun c => ¬ c == tempCol)) = df.columns := by
          rw [hdf2]
          show (df.columns ++ [tempCol]).filter (fun c => ¬ c == tempCol) = df.columns
          rw [List.filter_append]
          have hA : df.columns.filter (fun c => ¬ c == tempCol) = df.columns := by
            rw [List.filter_eq_self]
            intro a ha
            simp only [decide_eq_true_eq]
            intro hq
            exact htemp (eq_of_beq hq ▸ ha)
          have hB : [tempCol].filter (fun c => ¬ c == tempCol) = [] := by simp
          rw [hA, hB, List.append_nil]
        have hkeep_decomp : ∀ r ∈ df.rows,
            (existingCompositeKeys t pk).contains (compositeKeyD df.columns pk r) = true ∨
            r ∈ df.rows.filter (fun r =>
              ! (existingCompositeKeys t pk).contains (compositeKeyD df.columns pk r)) := by
          intro r hr
          by_cases hcon : (existingCompositeKeys t pk).contains (compositeKeyD df.columns pk r) = true
          · exact Or.inl hcon
          · refine Or.inr (List.mem_filter.mpr ⟨hr, ?_⟩)
            rw [Bool.not_eq_true] at hcon
            rw [Bool.not_eq_true']
            exact hcon
        have hfirst : store_data_incrementally t df pk =
            (⟨t.columns, t.rows ++ (df.rows.filter (fun r =>
                ! (existingCompositeKeys t pk).contains (compositeKeyD df.columns pk r))).map
                (fun r => t.columns.map (fun c => (getVal df.columns r c).getD Value.null))⟩,
             ⟨df.columns ++ [tempCol],
              df.rows.map (fun r => r ++ [Value.str (compositeKeyD df.columns pk r)])⟩,
             .inserted (df.rows.filter (fun r =>
                ! (existingCompositeKeys t pk).contains (compositeKeyD df.columns pk r))).length) := by
          rw [store_composite_branch t df pk hne0 h2 hpkB, hfilt1, if_neg (by rw [hemp]; simp),
            horig2, insertProjected, if_pos hallB, hdf2]
        have hkeys1 : existingCompositeKeys
            (⟨t.columns, t.rows ++ (df.rows.filter (fun r =>
                ! (existingCompositeKeys t pk).contains (compositeKeyD df.columns pk r))).map
                (fun r => t.columns.map (fun c => (getVal df.columns r c).getD Value.null))⟩ :
              DataFrame) pk =
            t.rows.map (compositeKeyD t.columns pk) ++
              ((df.rows.filter (fun r =>
                ! (existingCompositeKeys t pk).contains (compositeKeyD df.columns pk r))).map
                (fun r => t.columns.map (fun c => (getVal df.columns r c).getD Value.null))).map
                (compositeKeyD t.columns pk) := by
          rw [existingCompositeKeys, if_pos hpkBt]
          exact List.map_append _ _ _
        have hcov2 : ∀ r2 ∈ df.rows.map
            (fun r => r ++ [Value.str (compositeKeyD df.columns pk r)]),
            compositeKeyD (df.columns ++ [tempCol]) pk r2 ∈ existingCompositeKeys
              (⟨t.columns, t.rows ++ (df.rows.filter (fun r =>
                  ! (existingCompositeKeys t pk).contains (compositeKeyD df.columns pk r))).map
                  (fun r => t.columns.map (fun c => (getVal df.columns r c).getD Value.null))⟩ :
                DataFrame) pk := by
          intro r2 hr2
          obtain ⟨r, hr, rfl⟩ := List.mem_map.mp hr2
          rw [compositeKeyD_append_temp df.columns pk r tempCol _ hpk (hrows_df r hr), hkeys1]
          rcases hkeep_decomp r hr with hin | hkp
          · have hm := List.mem_of_elem_eq_true hin
            rw [hkeysT] at hm
            exact List.mem_append_left _ hm
          · apply List.mem_append_right
            apply List.mem_map.mpr
            refine ⟨t.columns.map (fun c => (getVal df.columns r c).getD Value.null),
              List.mem_map.mpr ⟨r, hkp, rfl⟩, ?_⟩
            rw [compositeKeyD_project t.columns pk _ (fun c hc => hcols ▸ hpk c hc)]
            rfl
        have hfilt2nil2 : ((df.rows.map
            (fun r => r ++ [Value.str (compositeKeyD df.columns pk r)])).filter
            (fun r => ! (existingCompositeKeys
              (⟨t.columns, t.rows ++ (df.rows.filter (fun r =>
                  ! (existingCompositeKeys t pk).contains (compositeKeyD df.columns pk r))).map
                  (fun r => t.columns.map (fun c => (getVal df.columns r c).getD Value.null))⟩ :
                DataFrame) pk).contains
              (compositeKeyD (df.columns ++ [tempCol]) pk r))) = [] :=
          filter_contains_covered _ _ _ hcov2
        rw [hfirst]
        show (store_data_incrementally
            ⟨t.columns, t.rows ++ (df.rows.filter (fun r =>
                ! (existingCompositeKeys t pk).contains (compositeKeyD df.columns pk r))).map
                (fun r => t.columns.map (fun c => (getVal df.columns r c).getD Value.null))⟩
            ⟨df.columns ++ [tempCol],
             df.rows.map (fun r => r ++ [Value.str (compositeKeyD df.columns pk r)])⟩ pk).1 =
          ⟨t.columns, t.rows ++ (df.rows.filter (fun r =>
              ! (existingCompositeKeys t pk).contains (compositeKeyD df.columns pk r))).map
              (fun r => t.columns.map (fun c => (getVal df.columns r c).getD Value.null))⟩ ∧
          (store_data_incrementally
            ⟨t.columns, t.rows ++ (df.rows.filter (fun r =>
                ! (existingCompositeKeys t pk).contains (compositeKeyD df.columns pk r))).map
                (fun r => t.columns.map (fun c => (getVal df.columns r c).getD Value.null))⟩
            ⟨df.columns ++ [tempCol],
             df.rows.map (fun r => r ++ [Value.str (compositeKeyD df.columns pk r)])⟩ pk).2.2.insertedCount = 0
        rw [store_composite_branch _ _ pk hne2 h2 hpkB2, hfilt2gen _, hfilt2nil2]
        exact ⟨rfl, rfl⟩
    · -- single-key path
      obtain ⟨c, rfl⟩ : ∃ c, pk = [c] := by
        cases pk with
        | nil => exact absurd rfl hpkne
        | cons c rest =>
          cases rest with
          | nil => exact ⟨c, rfl⟩
          | cons d ds =>
            exact absurd (by simp only [List.length_cons]; omega) h2
      have hc_df : c ∈ df.columns := hpk c (by simp)
      have hc_t : c ∈ t.columns := hcols ▸ hc_df
      have hct : t.columns.contains c = true := List.elem_eq_true_of_mem hc_t
      have hcb : df.columns.contains c = true := List.elem_eq_true_of_mem hc_df
      have hex : existingSingleVals t c =
          t.rows.map (fun r => (getVal t.columns r c).getD Value.null) := by
        rw [existingSingleVals, if_pos hct]
      have hmm : ∀ (l : List (List Value)), ((l.map (fun r =>
          t.columns.map (fun c2 => (getVal df.columns r c2).getD Value.null))).map
          (fun r => (getVal t.columns r c).getD Value.null))
          = l.map (fun r => (getVal df.columns r c).getD Value.null) := by
        intro l
        rw [List.map_map]
        apply List.map_congr_left
        intro r hr
        exact getVal_project t.columns
          (fun c2 => (getVal df.columns r c2).getD Value.null) c hc_t
      have hfiltGen : ∀ (ex : List Value),
          ((df.rows.zip (newSingleVals df c)).filterMap (fun rv =>
            if ex.any (fun e => e.canon == rv.2.canon) then none else some rv.1))
          = df.rows.filter (fun r => ! ex.any (fun e =>
              e.canon == ((getVal df.columns r c).getD Value.null).canon)) := by
        intro ex
        rw [newSingleVals]
        exact zip_map_filterMap (fun r => (getVal df.columns r c).getD Value.null)
          (fun v => ex.any (fun e => e.canon == v.canon)) df.rows
      have hfiltNumGen : ∀ (ex : List Value),
          ((df.rows.zip (newSingleVals df c)).filterMap (fun rv =>
            if ex.any (fun e => e.asRat? == rv.2.asRat?) then none else some rv.1))
          = df.rows.filter (fun r => ! ex.any (fun e =>
              e.asRat? == ((getVal df.columns r c).getD Value.null).asRat?)) := by
        intro ex
        rw [newSingleVals]
        exact zip_map_filterMap (fun r => (getVal df.columns r c).getD Value.null)
          (fun v => ex.any (fun e => e.asRat? == v.asRat?)) df.rows
      have hpathCanon : ∀ (tt : DataFrame), (existingSingleVals tt c).isEmpty = false →
          (isDateName c = true ∨ colIsNumeric (newSingleVals df c) = false) →
          store_data_incrementally tt df [c] =
            finishSingle tt df (df.rows.filter (fun r =>
              ! (existingSingleVals tt c).any (fun e =>
                e.canon == ((getVal df.columns r c).getD Value.null).canon))) := by
        intro tt hexne hd
        rw [store_single_branch tt df c hne0, if_neg (by simp [hexne]), if_pos hcb]
        by_cases hdd : isDateName c
        · rw [if_pos hdd, hfiltGen]
        · rcases hd with hd | hd
          · exact absurd hd hdd
          · rw [if_neg hdd, if_neg (by simp [hd]), hfiltGen]
      have hpathNum : ∀ (tt : DataFrame), (existingSingleVals tt c).isEmpty = false →
          isDateName c = false → colIsNumeric (newSingleVals df c) = true →
          (existingSingleVals tt c).all (fun e => e.asRat?.isSome) = true →
          store_data_incrementally tt df [c] =
            finishSingle tt df (df.rows.filter (fun r =>
              ! (existingSingleVals tt c).any (fun e =>
                e.asRat? == ((getVal df.columns r c).getD Value.null).asRat?))) := by
        intro tt hexne hdd hnum hall
        rw [store_single_branch tt df c hne0, if_neg (by simp [hexne]), if_pos hcb,
          if_neg (by simp [hdd]), if_pos hnum, if_pos hall, hfiltNumGen]
      by_cases hempT : (existingSingleVals t c).isEmpty
      · -- empty target: the whole batch inserted once, fully covered after
        have htnil : t.rows = [] := by
          have h := hempT
          rw [hex, isEmpty_true_iff] at h
          exact List.map_eq_nil_iff.mp h
        have hfirst : store_data_incrementally t df [c] =
            (⟨t.columns, df.rows.map (fun r =>
               t.columns.map (fun c2 => (getVal df.columns r c2).getD Value.null))⟩,
             df, .inserted df.rows.length) := by
          rw [store_single_branch t df c hne0, if_pos hempT, insertProjected,
            if_pos hallB, htnil]
          rfl
        have hex2 : existingSingleVals (⟨t.columns, df.rows.map (fun r =>
            t.columns.map (fun c2 => (getVal df.columns r c2).getD Value.null))⟩ :
              DataFrame) c = newSingleVals df c := by
          rw [existingSingleVals, if_pos hct]
          show ((df.rows.map (fun r =>
              t.columns.map (fun c2 => (getVal df.columns r c2).getD Value.null))).map
            (fun r => (getVal t.columns r c).getD Value.null)) = newSingleVals df c
          rw [hmm, newSingleVals]
        have hexne2 : (existingSingleVals (⟨t.columns, df.rows.map (fun r =>
            t.columns.map (fun c2 => (getVal df.columns r c2).getD Value.null))⟩ :
              DataFrame) c).isEmpty = false := by
          rw [hex2, newSingleVals, isEmpty_false_iff]
          simp [hdfne]
        rw [hfirst]
        show (store_data_incrementally (⟨t.columns, df.rows.map (fun r =>
            t.columns.map (fun c2 => (getVal df.columns r c2).getD Value.null))⟩ :
              DataFrame) df [c]).1
          = ⟨t.columns, df.rows.map (fun r =>
            t.columns.map (fun c2 => (getVal df.columns r c2).getD Value.null))⟩ ∧
          (store_data_incrementally (⟨t.columns, df.rows.map (fun r =>
            t.columns.map (fun c2 => (getVal df.columns r c2).getD Value.null))⟩ :
              DataFrame) df [c]).2.2.insertedCount = 0
        by_cases hdd : isDateName c
        · rw [hpathCanon _ hexne2 (Or.inl hdd)]
          have hnil : df.rows.filter (fun r =>
              ! (existingSingleVals (⟨t.columns, df.rows.map (fun r =>
                  t.columns.map (fun c2 => (getVal df.columns r c2).getD Value.null))⟩ :
                    DataFrame) c).any
                (fun e => e.canon == ((getVal df.columns r c).getD Value.null).canon))
              = [] := by
            apply filter_any_covered df.rows
              (fun r => (getVal df.columns r c).getD Value.null) Value.canon
            intro r hr
            refine ⟨(getVal df.columns r c).getD Value.null, ?_, beq_self_eq_true _⟩
            rw [hex2, newSingleVals]
            exact List.mem_map.mpr ⟨r, hr, rfl⟩
          rw [hnil, finishSingle]
          exact ⟨rfl, rfl⟩
        · rw [Bool.not_eq_true] at hdd
          by_cases hnum : colIsNumeric (newSingleVals df c)
          · rw [hpathNum _ hexne2 hdd hnum (by rw [hex2]; exact hnum)]
            have hnil : df.rows.filter (fun r =>
                ! (existingSingleVals (⟨t.columns, df.rows.map (fun r =>
                    t.columns.map (fun c2 => (getVal df.columns r c2).getD Value.null))⟩ :
                      DataFrame) c).any
                  (fun e => e.asRat? == ((getVal df.columns r c).getD Value.null).asRat?))
                = [] := by
              apply filter_any_covered df.rows
                (fun r => (getVal df.columns r c).getD Value.null) Value.asRat?
              intro r hr
              refine ⟨(getVal df.columns r c).getD Value.null, ?_, beq_self_eq_true _⟩
              rw [hex2, newSingleVals]
              exact List.mem_map.mpr ⟨r, hr, rfl⟩
            rw [hnil, finishSingle]
            exact ⟨rfl, rfl⟩
          · rw [Bool.not_eq_true] at hnum
            rw [hpathCanon _ hexne2 (Or.inr hnum)]
            have hnil : df.rows.filter (fun r =>
                ! (existingSingleVals (⟨t.columns, df.rows.map (fun r =>
                    t.columns.map (fun c2 => (getVal df.columns r c2).getD Value.null))⟩ :
                      DataFrame) c).any
                  (fun e => e.canon == ((getVal df.columns r c).getD Value.null).canon))
                = [] := by
              apply filter_any_covered df.rows
                (fun r => (getVal df.columns r c).getD Value.null) Value.canon
              intro r hr
              refine ⟨(getVal df.columns r c).getD Value.null, ?_, beq_self_eq_true _⟩
              rw [hex2, newSingleVals]
              exact List.mem_map.mpr ⟨r, hr, rfl⟩
            rw [hnil, finishSingle]
            exact ⟨rfl, rfl⟩
      · -- nonempty target
        rw [Bool.not_eq_true] at hempT
        have hex2gen : ∀ (keep : List (List Value)),
            existingSingleVals (⟨t.columns, t.rows ++ keep.map (fun r =>
              t.columns.map (fun c2 => (getVal df.columns r c2).getD Value.null))⟩ :
                DataFrame) c
            = existingSingleVals t c ++
                keep.map (fun r => (getVal df.columns r c).getD Value.null) := by
          intro keep
          rw [existingSingleVals, if_pos hct]
          show ((t.rows ++ keep.map (fun r =>
              t.columns.map (fun c2 => (getVal df.columns r c2).getD Value.null))).map
            (fun r => (getVal t.columns r c).getD Value.null))
            = existingSingleVals t c ++
                keep.map (fun r => (getVal df.columns r c).getD Value.null)
          rw [List.map_append, hmm, hex]
        have hexne2gen : ∀ (keep : List (List Value)),
            (existingSingleVals (⟨t.columns, t.rows ++ keep.map (fun r =>
              t.columns.map (fun c2 => (getVal df.columns r c2).getD Value.null))⟩ :
                DataFrame) c).isEmpty = false := by
          intro keep
          rw [hex2gen keep, isEmpty_false_iff]
          intro hcon
          exact (isEmpty_false_iff _).mp hempT (List.append_eq_nil.mp hcon).1
        have hcanonB : (isDateName c = true ∨ colIsNumeric (newSingleVals df c) = false) →
            (store_data_incrementally (store_data_incrementally t df [c]).1
                (store_data_incrementally t df [c]).2.1 [c]).1
              = (store_data_incrementally t df [c]).1 ∧
            ((store_data_incrementally (store_data_incrementally t df [c]).1
                (store_data_incrementally t df [c]).2.1 [c]).2.2).insertedCount = 0 := by
          intro hOr
          by_cases hkeep : (df.rows.filter (fun r =>
              ! (existingSingleVals t c).any (fun e =>
                e.canon == ((getVal df.columns r c).getD Value.null).canon))).isEmpty
          · rw [isEmpty_true_iff] at hkeep
            have hfirst : store_data_incrementally t df [c] = (t, df, .inserted 0) := by
              rw [hpathCanon t hempT hOr, hkeep, finishSingle]
              rfl
            rw [hfirst]
            show (store_data_incrementally t df [c]).1 = t ∧
              (store_data_incrementally t df [c]).2.2.insertedCount = 0
            rw [hfirst]
            exact ⟨rfl, rfl⟩
          · rw [Bool.not_eq_true] at hkeep
            have hfirst : store_data_incrementally t df [c] =
                (⟨t.columns, t.rows ++ (df.rows.filter (fun r =>
                    ! (existingSingleVals t c).any (fun e =>
                      e.canon == ((getVal df.columns r c).getD Value.null).canon))).map
                    (fun r => t.columns.map (fun c2 =>
                      (getVal df.columns r c2).getD Value.null))⟩,
                 df, .inserted (df.rows.filter (fun r =>
                    ! (existingSingleVals t c).any (fun e =>
                      e.canon == ((getVal df.columns r c).getD Value.null).canon))).length) := by
              rw [hpathCanon t hempT hOr, finishSingle, if_neg (by simp [hkeep]),
                insertProjected, if_pos hallB]
            have hcov : ∀ r ∈ df.rows, ∃ e ∈ existingSingleVals
                (⟨t.columns, t.rows ++ (df.rows.filter (fun r =>
                    ! (existingSingleVals t c).any (fun e =>
                      e.canon == ((getVal df.columns r c).getD Value.null).canon))).map
                    (fun r => t.columns.map (fun c2 =>
                      (getVal df.columns r c2).getD Value.null))⟩ : DataFrame) c,
                e.canon == ((getVal df.columns r c).getD Value.null).canon := by
              intro r hr
              by_cases hany : (existingSingleVals t c).any (fun e =>
                  e.canon == ((getVal df.columns r c).getD Value.null).canon)
              · obtain ⟨e, he, hbe⟩ := List.any_eq_true.mp hany
                exact ⟨e, by rw [hex2gen]; exact List.mem_append_left _ he, hbe⟩
              · rw [Bool.not_eq_true] at hany
                refine ⟨(getVal df.columns r c).getD Value.null, ?_, beq_self_eq_true _⟩
                rw [hex2gen]
                apply List.mem_append_right
                apply List.mem_map.mpr
                refine ⟨r, List.mem_filter.mpr ⟨hr, ?_⟩, rfl⟩
                rw [Bool.not_eq_true']
                exact hany
            have hnil2 : df.rows.filter (fun r =>
                ! (existingSingleVals (⟨t.columns, t.rows ++ (df.rows.filter (fun r =>
                    ! (existingSingleVals t c).any (fun e =>
                      e.canon == ((getVal df.columns r c).getD Value.null).canon))).map
                    (fun r => t.columns.map (fun c2 =>
                      (getVal df.columns r c2).getD Value.null))⟩ : DataFrame) c).any
                  (fun e => e.canon == ((getVal df.columns r c).getD Value.null).canon))
                = [] :=
              filter_any_covered df.rows
                (fun r => (getVal df.columns r c).getD Value.null) Value.canon _ hcov
            rw [hfirst]
            show (store_data_incrementally (⟨t.columns, t.rows ++ (df.rows.filter (fun r =>
                ! (existingSingleVals t c).any (fun e =>
                  e.canon == ((getVal df.columns r c).getD Value.null).canon))).map
                (fun r => t.columns.map (fun c2 =>
                  (getVal df.columns r c2).getD Value.null))⟩ : DataFrame) df [c]).1
              = ⟨t.columns, t.rows ++ (df.rows.filter (fun r =>
                ! (existingSingleVals t c).any (fun e =>
                  e.canon == ((getVal df.columns r c).getD Value.null).canon))).map
                (fun r => t.columns.map (fun c2 =>
                  (getVal df.columns r c2).getD Value.null))⟩ ∧
              (store_data_incrementally (⟨t.columns, t.rows ++ (df.rows.filter (fun r =>
                ! (existingSingleVals t c).any (fun e =>
                  e.canon == ((getVal df.columns r c).getD Value.null).canon))).map
                (fun r => t.columns.map (fun c2 =>
                  (getVal df.columns r c2).getD Value.null))⟩ : DataFrame) df [c]).2.2.insertedCount
              = 0
            rw [hpathCanon _ (hexne2gen _) hOr, hnil2, finishSingle]
            exact ⟨rfl, rfl⟩
        by_cases hdd : isDateName c
        · exact hcanonB (Or.inl hdd)
        · rw [Bool.not_eq_true] at hdd
          by_cases hnum : colIsNumeric (newSingleVals df c)
          · by_cases hallT : (existingSingleVals t c).all (fun e => e.asRat?.isSome)
            · by_cases hkeep : (df.rows.filter (fun r =>
                  ! (existingSingleVals t c).any (fun e =>
                    e.asRat? == ((getVal df.columns r c).getD Value.null).asRat?))).isEmpty
              · rw [isEmpty_true_iff] at hkeep
                have hfirst : store_data_incrementally t df [c] = (t, df, .inserted 0) := by
                  rw [hpathNum t hempT hdd hnum hallT, hkeep, finishSingle]
                  rfl
                rw [hfirst]
                show (store_data_incrementally t df [c]).1 = t ∧
                  (store_data_incrementally t df [c]).2.2.insertedCount = 0
                rw [hfirst]
                exact ⟨rfl, rfl⟩
              · rw [Bool.not_eq_true] at hkeep
                have hfirst : store_data_incrementally t df [c] =
                    (⟨t.columns, t.rows ++ (df.rows.filter (fun r =>
                        ! (existingSingleVals t c).any (fun e =>
                          e.asRat? == ((getVal df.columns r c).getD Value.null).asRat?))).map
                        (fun r => t.columns.map (fun c2 =>
                          (getVal df.columns r c2).getD Value.null))⟩,
                     df, .inserted (df.rows.filter (fun r =>
                        ! (existingSingleVals t c).any (fun e =>
                          e.asRat? == ((getVal df.columns r c).getD Value.null).asRat?))).length) := by
                  rw [hpathNum t hempT hdd hnum hallT, finishSingle, if_neg (by simp [hkeep]),
                    insertProjected, if_pos hallB]
                have hall2 : (existingSingleVals (⟨t.columns, t.rows ++ (df.rows.filter (fun r =>
                    ! (existingSingleVals t c).any (fun e =>
                      e.asRat? == ((getVal df.columns r c).getD Value.null).asRat?))).map
                    (fun r => t.columns.map (fun c2 =>
                      (getVal df.columns r c2).getD Value.null))⟩ : DataFrame) c).all
                    (fun e => e.asRat?.isSome) = true := by
                  rw [hex2gen, List.all_append, hallT, Bool.true_and]
                  apply List.all_eq_true.mpr
                  intro v hv
                  obtain ⟨r, hrk, rfl⟩ := List.mem_map.mp hv
                  have hrdf : r ∈ df.rows := (List.mem_filter.mp hrk).1
                  have hmem : (getVal df.columns r c).getD Value.null ∈ newSingleVals df c := by
                    rw [newSingleVals]
                    exact List.mem_map.mpr ⟨r, hrdf, rfl⟩
                  exact List.all_eq_true.mp hnum _ hmem
                have hcov : ∀ r ∈ df.rows, ∃ e ∈ existingSingleVals
                    (⟨t.columns, t.rows ++ (df.rows.filter (fun r =>
                        ! (existingSingleVals t c).any (fun e =>
                          e.asRat? == ((getVal df.columns r c).getD Value.null).asRat?))).map
                        (fun r => t.columns.map (fun c2 =>
                          (getVal df.columns r c2).getD Value.null))⟩ : DataFrame) c,
                    e.asRat? == ((getVal df.columns r c).getD Value.null).asRat? := by
                  intro r hr
                  by_cases hany : (existingSingleVals t c).any (fun e =>
                      e.asRat? == ((getVal df.columns r c).getD Value.null).asRat?)
                  · obtain ⟨e, he, hbe⟩ := List.any_eq_true.mp hany
                    exact ⟨e, by rw [hex2gen]; exact List.mem_append_left _ he, hbe⟩
                  · rw [Bool.not_eq_true] at hany
                    refine ⟨(getVal df.columns r c).getD Value.null, ?_, beq_self_eq_true _⟩
                    rw [hex2gen]
                    apply List.mem_append_right
                    apply List.mem_map.mpr
                    refine ⟨r, List.mem_filter.mpr ⟨hr, ?_⟩, rfl⟩
                    rw [Bool.not_eq_true']
                    exact hany
                have hnil2 : df.rows.filter (fun r =>
                    ! (existingSingleVals (⟨t.columns, t.rows ++ (df.rows.filter (fun r =>
                        ! (existingSingleVals t c).any (fun e =>
                          e.asRat? == ((getVal df.columns r c).getD Value.null).asRat?))).map
                        (fun r => t.columns.map (fun c2 =>
                          (getVal df.columns r c2).getD Value.null))⟩ : DataFrame) c).any
                      (fun e => e.asRat? == ((getVal df.columns r c).getD Value.null).asRat?))
                    = [] :=
                  filter_any_covered df.rows
                    (fun r => (getVal df.columns r c).getD Value.null) Value.asRat? _ hcov
                rw [hfirst]
                show (store_data_incrementally (⟨t.columns, t.rows ++ (df.rows.filter (fun r =>
                    ! (existingSingleVals t c).any (fun e =>
                      e.asRat? == ((getVal df.columns r c).getD Value.null).asRat?))).map
                    (fun r => t.columns.map (fun c2 =>
                      (getVal df.columns r c2).getD Value.null))⟩ : DataFrame) df [c]).1
                  = ⟨t.columns, t.rows ++ (df.rows.filter (fun r =>
                    ! (existingSingleVals t c).any (fun e =>
                      e.asRat? == ((getVal df.columns r c).getD Value.null).asRat?))).map
                    (fun r => t.columns.map (fun c2 =>
                      (getVal df.columns r c2).getD Value.null))⟩ ∧
                  (store_data_incrementally (⟨t.columns, t.rows ++ (df.rows.filter (fun r =>
                    ! (existingSingleVals t c).any (fun e =>
                      e.asRat? == ((getVal df.columns r c).getD Value.null).asRat?))).map
                    (fun r => t.columns.map (fun c2 =>
                      (getVal df.columns r c2).getD Value.null))⟩ : DataFrame) df [c]).2.2.insertedCount
                  = 0
                rw [hpathNum _ (hexne2gen _) hdd hnum hall2, hnil2, finishSingle]
                exact ⟨rfl, rfl⟩
            · have hfirst : store_data_incrementally t df [c] =
                  (t, df, .loggedError "ValueError: could not convert existing keys to float") := by
                rw [store_single_branch t df c hne0, if_neg (by simp [hempT]), if_pos hcb,
                  if_neg (by simp [hdd]), if_pos hnum, if_neg hallT]
              rw [hfirst]
              show (store_data_incrementally t df [c]).1 = t ∧
                (store_data_incrementally t df [c]).2.2.insertedCount = 0
              rw [hfirst]
              exact ⟨rfl, rfl⟩
          · rw [Bool.not_eq_true] at hnum
            exact hcanonB (Or.inr hnum)

/-- Witness for C1 at a concrete two-column composite merge: a one-row table,
a one-row batch with a fresh key, merged on `["timestamp", "coin_id"]`. -/
theorem merge_idempotent_witness :
    (store_data_incrementally
        (store_data_incrementally
          ⟨["timestamp", "coin_id"], [[Value.int 0, Value.str ['a']]]⟩
          ⟨["timestamp", "coin_id"], [[Value.int 1, Value.str ['b']]]⟩
          ["timestamp", "coin_id"]).1
        (store_data_incrementally
          ⟨["timestamp", "coin_id"], [[Value.int 0, Value.str ['a']]]⟩
          ⟨["timestamp", "coin_id"], [[Value.int 1, Value.str ['b']]]⟩
          ["timestamp", "coin_id"]).2.1
        ["timestamp", "coin_id"]).1
      = (store_data_incrementally
          ⟨["timestamp", "coin_id"], [[Value.int 0, Value.str ['a']]]⟩
          ⟨["timestamp", "coin_id"], [[Value.int 1, Value.str ['b']]]⟩
          ["timestamp", "coin_id"]).1 ∧
    ((store_data_incrementally
        (store_data_incrementally
          ⟨["timestamp", "coin_id"], [[Value.int 0, Value.str ['a']]]⟩
          ⟨["timestamp", "coin_id"], [[Value.int 1, Value.str ['b']]]⟩
          ["timestamp", "coin_id"]).1
        (store_data_incrementally
          ⟨["timestamp", "coin_id"], [[Value.int 0, Value.str ['a']]]⟩
          ⟨["timestamp", "coin_id"], [[Value.int 1, Value.str ['b']]]⟩
          ["timestamp", "coin_id"]).2.1
        ["timestamp", "coin_id"]).2.2).insertedCount = 0 :=
  merge_idempotent
    ⟨["timestamp", "coin_id"], [[Value.int 0, Value.str ['a']]]⟩
    ⟨["timestamp", "coin_id"], [[Value.int 1, Value.str ['b']]]⟩
    ["timestamp", "coin_id"]
    (by decide) (by decide) (by decide) (by decide) (by decide)

